import Mathlib

/-!
# System-call layer of `userprog/syscall.c`

A shallow embedding of the system-call dispatcher, the argument fetcher, the
per-process descriptor table and the exit sequence.

* Machine words are natural numbers below `2^32`; `int` values are integers
  obtained with `to_int32`; address arithmetic wraps modulo `2^32`.
* A `struct file *` is a `Handle`; the null pointer is `none`.
* The kernel functions called from `syscall.c` but defined elsewhere
  (filesystem, console, process executor, scheduler) are collaborators: every
  call is recorded in the trace of the state and the value a call returns is
  taken from a `Collab` record, one answer for each collaborator.
* Indexing `file_list` or the local buffer `arg` outside its bounds has no
  defined behaviour in C; such an access ends an execution with
  `Outcome.undefined`.
* The dispatcher is given a second time, `syscall_handler_on`, with the words of
  the kernel stack at and after its local buffer `arg` as a parameter: on the
  machine an access past the end of `arg` is an access to the stack words that
  follow it.
-/

namespace Syscall

/-! ## Machine integers -/

/-- Number of values of a 32-bit word. -/
def WORD : Nat := 4294967296

/-- Conversion of a 32-bit word to `int` (two's complement). -/
def to_int32 (w : Nat) : Int :=
  if w % WORD < 2147483648 then ((w % WORD : Nat) : Int) else ((w % WORD : Nat) : Int) - 4294967296

/-- Conversion of an `int` to `uint32_t`. -/
def to_uint32 (v : Int) : Nat := (v % 4294967296).toNat

/-- Result of an `int` operation whose mathematical value is `v`, reduced to the
signed 32-bit range (wrap-around). -/
def wrap32 (v : Int) : Int := to_int32 (to_uint32 v)

/-! ## Data model -/

/-- A non-null `struct file *`. -/
abbrev Handle := Nat

/-- The `struct file` declared at the top of `syscall.c`. -/
structure file where
  inode : Nat
  pos : Int
  deny_write : Bool
  deriving DecidableEq, Repr

/-- The fields of `struct thread` used by `syscall.c`; `file_list` has 131
slots, each a `struct file *`. -/
structure thread where
  name : String
  exit_status : Int
  file_list : Fin 131 → Option Handle

/-- The fields of `struct intr_frame` used by the dispatcher. -/
structure intr_frame where
  esp : Nat
  eax : Nat
  deriving DecidableEq, Repr

/-- What the execution does that is visible outside `syscall.c`: accesses to
user memory and calls of collaborators, in program order. -/
inductive Event where
  | load32 (addr : Nat)
  | store8 (addr : Nat) (v : Nat)
  | load8 (addr : Nat)
  | store_eax (v : Nat)
  | printf_exit (name : String) (status : Int)
  | printf_fibonacci (v : Int)
  | printf_sum (v : Int)
  | lock_acquire
  | lock_release
  | thread_exit
  | shutdown_power_off
  | process_execute (cmd_line : Nat)
  | process_wait (pid : Int)
  | filesys_create (path : Nat) (initial_size : Int)
  | filesys_remove (path : Nat)
  | filesys_open (path : Nat)
  | file_close (h : Handle)
  | file_deny_write (h : Handle)
  | file_read (h : Handle) (buffer : Nat) (size : Int)
  | file_write (h : Handle) (buffer : Nat) (size : Int)
  | file_length (h : Handle)
  | file_seek (h : Handle) (pos : Nat)
  | file_tell (h : Handle)
  | putbuf (buffer : Nat) (size : Nat)
  | input_getc
  deriving DecidableEq, Repr

/-- The state the system-call layer works on. -/
structure State where
  /-- the running thread, `thread_current ()` -/
  cur : thread
  /-- the interrupt frame handed to the dispatcher -/
  frame : intr_frame
  /-- `file_lock` is held by the running thread -/
  file_lock : Bool
  /-- byte-addressed memory -/
  mem : Nat → Nat
  /-- the `struct file` objects behind the handles -/
  files : Handle → file
  /-- handles the filesystem has open (opened and not yet closed) -/
  live : List Handle
  /-- characters the console delivers, and how many were consumed -/
  input : Nat → Nat
  input_pos : Nat
  /-- events so far, oldest first -/
  trace : List Event

/-- The 15 system calls the dispatcher knows. -/
inductive Sysno where
  | SYS_HALT | SYS_EXIT | SYS_EXEC | SYS_WAIT | SYS_CREATE | SYS_REMOVE | SYS_OPEN
  | SYS_CLOSE | SYS_FILESIZE | SYS_READ | SYS_WRITE | SYS_SEEK | SYS_TELL
  | SYS_FIBONACCI | SYS_SUM_OF_FOUR_INT
  deriving DecidableEq, Repr

/-- Constants of headers that are not part of `syscall.c`: the user/kernel
split of `threads/vaddr.h` and the numbering of `syscall-nr.h`, read as the
map from a number to the `case` label it equals (`none`: the `default` case). -/
structure Config where
  PHYS_BASE : Nat
  syscall_nr : Nat → Option Sysno

/-- Values returned by the collaborators during one system call. -/
structure Collab where
  process_execute : Int
  process_wait : Int
  filesys_create : Bool
  filesys_remove : Bool
  filesys_open : Option Handle
  strcmp : Int
  file_read : Int
  file_read_data : Nat → Nat
  file_write : Int
  file_length : Int
  file_tell : Int

/-- How a call of a function of `syscall.c` ends. -/
inductive Outcome (α : Type) where
  /-- the function returns `v` -/
  | ret (v : α) (s : State)
  /-- the process was terminated by `exit`, which ended in `thread_exit` -/
  | exited (s : State)
  /-- `thread_exit` was called directly, not through `exit` -/
  | killed (s : State)
  /-- the machine was powered off -/
  | halted (s : State)
  /-- an array was indexed outside its bounds -/
  | undefined

/-- Sequencing: the rest of the caller runs only when the callee returns. -/
def Outcome.bind {α β : Type} (o : Outcome α) (k : α → State → Outcome β) : Outcome β :=
  match o with
  | Outcome.ret v s => k v s
  | Outcome.exited s => Outcome.exited s
  | Outcome.killed s => Outcome.killed s
  | Outcome.halted s => Outcome.halted s
  | Outcome.undefined => Outcome.undefined

/-- The state an execution ends in, when it has one. -/
def Outcome.state? {α : Type} : Outcome α → Option State
  | Outcome.ret _ s => some s
  | Outcome.exited s => some s
  | Outcome.killed s => some s
  | Outcome.halted s => some s
  | Outcome.undefined => none

/-- The value returned, when the call returns. -/
def Outcome.value? {α : Type} : Outcome α → Option α
  | Outcome.ret v _ => some v
  | _ => none

/-- The exit status recorded, when the call ended in `exit`. -/
def Outcome.exit_status? {α : Type} : Outcome α → Option Int
  | Outcome.exited s => some s.cur.exit_status
  | _ => none

/-! ## Primitive steps -/

/-- Append an event to the trace. -/
def emit (e : Event) (s : State) : State := { s with trace := s.trace ++ [e] }

/-- The macro `is_user_vaddr` of `threads/vaddr.h`: the address is below the split. -/
def is_user_vaddr (cfg : Config) (vaddr : Nat) : Bool := decide (vaddr < cfg.PHYS_BASE)

/-- The 32-bit little-endian word stored at `addr`. -/
def word_at (mem : Nat → Nat) (addr : Nat) : Nat :=
  (mem addr % 256 + 256 * (mem ((addr + 1) % WORD) % 256)
    + 65536 * (mem ((addr + 2) % WORD) % 256) + 16777216 * (mem ((addr + 3) % WORD) % 256))

/-- Read of `*(uint32_t *) addr`. -/
def load32 (addr : Nat) (s : State) : Nat × State := (word_at s.mem addr, emit (Event.load32 addr) s)

/-- Write of one `char` at `addr`. -/
def store8 (addr : Nat) (v : Nat) (s : State) : State :=
  emit (Event.store8 addr v) { s with mem := fun a => if a = addr then v % 256 else s.mem a }

/-- Read of one `char` at `addr`. -/
def load8 (addr : Nat) (s : State) : Nat × State := (s.mem addr % 256, emit (Event.load8 addr) s)

/-- Slot `fd` of the descriptor table of `t`: `none` when `fd` is not an index
of the 131-slot array, otherwise the pointer stored there. -/
def slot (t : thread) (fd : Int) : Option (Option Handle) :=
  if h : 0 ≤ fd ∧ fd < 131 then some (t.file_list ⟨fd.toNat, by omega⟩) else none

/-- Assignment `file_list[fd] = v`, for `fd` inside the table. -/
def set_slot (t : thread) (fd : Int) (v : Option Handle) : thread :=
  { t with file_list := fun j => if ((j.val : Nat) : Int) = fd then v else t.file_list j }

/-- `lock_acquire (&file_lock)`. -/
def lock_acquire (s : State) : State := emit Event.lock_acquire { s with file_lock := true }

/-- `lock_release (&file_lock)`. -/
def lock_release (s : State) : State := emit Event.lock_release { s with file_lock := false }

/-- Modelled from the spec: `file_close` of the filesystem collaborator, which
is not in `syscall.c`; it releases the handle, so the handle is no longer among
the open handles of the filesystem. -/
def file_close (h : Handle) (s : State) : State :=
  emit (Event.file_close h) { s with live := s.live.erase h }

/-- Modelled from the spec: `file_deny_write` of the filesystem collaborator,
which is not in `syscall.c`; it marks the handle write-denied. -/
def file_deny_write (h : Handle) (s : State) : State :=
  emit (Event.file_deny_write h)
    { s with files := fun k => if k = h then { s.files h with deny_write := true } else s.files k }

/-- Modelled from the spec: `filesys_open` of the filesystem collaborator,
which is not in `syscall.c`; it yields a null pointer or a new open handle. -/
def filesys_open (a : Collab) (path : Nat) (s : State) : Option Handle × State :=
  match a.filesys_open with
  | none => (none, emit (Event.filesys_open path) s)
  | some h => (some h, emit (Event.filesys_open path) { s with live := h :: s.live })

/-- Memory after the bytes `data j`, `data (j + 1)`, ..., `n` of them, were
stored at `buffer + j`, `buffer + j + 1`, ... -/
def copy_out (buffer : Nat) (data : Nat → Nat) : Nat → Nat → (Nat → Nat) → Nat → Nat
  | 0, _, mem => mem
  | n + 1, j, mem =>
    copy_out buffer data n (j + 1) fun x => if x = (buffer + j) % WORD then data j % 256 else mem x

/-- Modelled from the spec: `file_read` of the filesystem collaborator, which
is not in `syscall.c`; it stores the bytes it transfers at `buffer` onwards and
returns their number. -/
def file_read (a : Collab) (h : Handle) (buffer : Nat) (size : Int) (s : State) : Int × State :=
  (a.file_read,
    emit (Event.file_read h buffer size)
      { s with mem := copy_out buffer a.file_read_data a.file_read.toNat 0 s.mem })

/-- `input_getc ()`: the next character of the console. -/
def input_getc (s : State) : Nat × State :=
  (s.input s.input_pos % 256, emit Event.input_getc { s with input_pos := s.input_pos + 1 })

/-! ## The exit sequence and the descriptor operations -/

/-- The `else` branch of `close`: the slot holds `h`, which is released, and
the slot is cleared. -/
def close_live (fd : Int) (h : Handle) (s : State) : State :=
  let s1 := file_close h s
  { s1 with cur := set_slot s1.cur fd none }

/-- The loop `for (i = 3; i < 131; i++)` of `exit`, with `n` iterations left
and the counter at `i`. A slot that is not null is closed with `close (i)`,
which takes its `else` branch since the slot was just seen not to be null. The
counter stays in 3..130, so the slot read is always one of the table. -/
def exit_loop : Nat → Int → State → State
  | 0, _, s => s
  | n + 1, i, s =>
    match slot s.cur i with
    | some (some h) => exit_loop n (i + 1) (close_live i h s)
    | _ => exit_loop n (i + 1) s

/-- Assignment `cur->exit_status = status`. -/
def set_exit_status (status : Int) (s : State) : State :=
  { s with cur := { s.cur with exit_status := status } }

/-- `exit (status)`: the state in which `thread_exit` has been called. -/
def exit (status : Int) (s : State) : State :=
  let s1 := emit (Event.printf_exit s.cur.name status) s
  let s2 := set_exit_status status s1
  let s3 := exit_loop 128 3 s2
  emit Event.thread_exit s3

/-- `halt ()`. -/
def halt (s : State) : Outcome Unit := Outcome.halted (emit Event.shutdown_power_off s)

/-- `exec (cmd_line)`. -/
def exec (a : Collab) (cmd_line : Nat) (s : State) : Outcome Int :=
  Outcome.ret a.process_execute (emit (Event.process_execute cmd_line) s)

/-- `wait (pid)`. -/
def wait (a : Collab) (pid : Int) (s : State) : Outcome Int :=
  Outcome.ret a.process_wait (emit (Event.process_wait pid) s)

/-- `create (file, initial_size)`. -/
def create (a : Collab) (path : Nat) (initial_size : Nat) (s : State) : Outcome Bool :=
  Outcome.ret a.filesys_create (emit (Event.filesys_create path (to_int32 initial_size)) s)

/-- `remove (file)`. -/
def remove (a : Collab) (path : Nat) (s : State) : Outcome Bool :=
  Outcome.ret a.filesys_remove (emit (Event.filesys_remove path) s)

/-- The loop `for (i = 3; i < 131; i++)` of `open`, with `n` iterations left,
the counter at `i` and the opened file `f`; the first component is `ret`. -/
def open_loop (a : Collab) (f : Handle) : Nat → Int → State → Option (Int × State)
  | 0, _, s => some (-1, s)
  | n + 1, i, s =>
    match slot s.cur i with
    | none => none
    | some none =>
      let s1 := if a.strcmp = 0 then file_deny_write f s else s
      some (i, { s1 with cur := set_slot s1.cur i (some f) })
    | some (some _) => open_loop a f n (i + 1) s

/-- `open (file)`. -/
def open_ (a : Collab) (path : Nat) (s : State) : Outcome Int :=
  let s1 := lock_acquire s
  match filesys_open a path s1 with
  | (none, s2) => Outcome.ret (-1) (lock_release s2)
  | (some f, s2) =>
    match open_loop a f 128 3 s2 with
    | none => Outcome.undefined
    | some (r, s3) => Outcome.ret r (lock_release s3)

/-- `close (fd)`. -/
def close (fd : Int) (s : State) : Outcome Unit :=
  match slot s.cur fd with
  | none => Outcome.undefined
  | some none => Outcome.exited (exit (-1) s)
  | some (some h) => Outcome.ret () (close_live fd h s)

/-- `filesize (fd)`. -/
def filesize (a : Collab) (fd : Int) (s : State) : Outcome Int :=
  match slot s.cur fd with
  | none => Outcome.undefined
  | some none => Outcome.exited (exit (-1) s)
  | some (some h) => Outcome.ret a.file_length (emit (Event.file_length h) s)

/-- `seek (fd, pos)`. -/
def seek (fd : Int) (pos : Nat) (s : State) : Outcome Unit :=
  match slot s.cur fd with
  | none => Outcome.undefined
  | some none => Outcome.exited (exit (-1) s)
  | some (some h) => Outcome.ret () (emit (Event.file_seek h pos) s)

/-- `tell (fd)`; the result is `unsigned`. -/
def tell (a : Collab) (fd : Int) (s : State) : Outcome Nat :=
  match slot s.cur fd with
  | none => Outcome.undefined
  | some none => Outcome.exited (exit (-1) s)
  | some (some h) => Outcome.ret (to_uint32 a.file_tell) (emit (Event.file_tell h) s)

/-- The loop `for (i = 0; i < size; i++)` of `read` for descriptor 0, with
`n = size - i` iterations left; the result is the value of `i` when the loop is
left. The counter `i` is an `int` that the loop test compares with the unsigned
`size` as an unsigned number: the loop keeps its unsigned value (an overflow of
the `int` wraps around) and `read` converts it to `int` when it returns it. -/
def read_loop (buffer : Nat) : Nat → Nat → State → Nat × State
  | 0, i, s => (i, s)
  | n + 1, i, s =>
    let (c, s1) := input_getc s
    let s2 := store8 ((buffer + i) % WORD) c s1
    let (b, s3) := load8 ((buffer + i) % WORD) s2
    if b = 0 then (i, s3) else read_loop buffer n (i + 1) s3

/-- `read (fd, buffer, size)`. -/
def read (cfg : Config) (a : Collab) (fd : Int) (buffer : Nat) (size : Nat) (s : State) :
    Outcome Int :=
  if ¬ is_user_vaddr cfg buffer then Outcome.exited (exit (-1) s)
  else
    let s1 := lock_acquire s
    if fd = 0 then
      match read_loop buffer size 0 s1 with
      | (i, s2) => Outcome.ret (to_int32 i) (lock_release s2)
    else if fd ≥ 3 then
      match slot s1.cur fd with
      | none => Outcome.undefined
      | some none => Outcome.exited (exit (-1) s1)
      | some (some h) =>
        match file_read a h buffer (to_int32 size) s1 with
        | (r, s2) => Outcome.ret r (lock_release s2)
    else Outcome.ret (-1) (lock_release s1)

/-- `write (fd, buffer, size)`. -/
def write (cfg : Config) (a : Collab) (fd : Int) (buffer : Nat) (size : Nat) (s : State) :
    Outcome Int :=
  if ¬ is_user_vaddr cfg buffer then Outcome.exited (exit (-1) s)
  else
    let s1 := lock_acquire s
    if fd = 1 then
      Outcome.ret (to_int32 size) (lock_release (emit (Event.putbuf buffer size) s1))
    else if fd ≥ 3 then
      match slot s1.cur fd with
      | none => Outcome.undefined
      | some none => Outcome.exited (exit (-1) (lock_release s1))
      | some (some h) =>
        let s2 := if (s1.files h).deny_write then file_deny_write h s1 else s1
        Outcome.ret a.file_write (lock_release (emit (Event.file_write h buffer (to_int32 size)) s2))
    else Outcome.ret (-1) (lock_release s1)

/-- The loop of `fibonacci`, with `n` iterations left. -/
def fibonacci_loop : Nat → Int → Int → Int
  | 0, _, second => second
  | n + 1, first, second => fibonacci_loop n second (wrap32 (first + second))

/-- `fibonacci (n)`. -/
def fibonacci (n : Int) (s : State) : Outcome Int :=
  if n = 1 ∨ n = 2 then Outcome.ret 1 (emit (Event.printf_fibonacci 1) s)
  else
    let second := fibonacci_loop (wrap32 (n - 2)).toNat 1 1
    Outcome.ret second (emit (Event.printf_fibonacci second) s)

/-- `sum_of_four_int (a, b, c, d)`. -/
def sum_of_four_int (a b c d : Int) (s : State) : Outcome Int :=
  let r := wrap32 (wrap32 (wrap32 (a + b) + c) + d)
  Outcome.ret r (emit (Event.printf_sum r) s)

/-! ## Argument fetch and dispatch -/

/-- The loop of `get_argument`, with `n = count - i` iterations left. The list
`arg` is the array the pointer `arg` points to; its length is the number of
words the caller reserved. -/
def get_argument_loop (cfg : Config) : Nat → Nat → Nat → List Nat → State → Outcome (List Nat)
  | 0, _, _, arg, s => Outcome.ret arg s
  | n + 1, i, esp, arg, s =>
    let esp1 := (esp + 4) % WORD
    if ¬ is_user_vaddr cfg esp1 then Outcome.exited (exit (-1) s)
    else if i < arg.length then
      match load32 esp1 s with
      | (w, s1) => get_argument_loop cfg n (i + 1) esp1 (arg.set i w) s1
    else Outcome.undefined

/-- `get_argument (esp, arg, count)`; the value returned is the array `arg`
after the call. -/
def get_argument (cfg : Config) (esp : Nat) (arg : List Nat) (count : Int) (s : State) :
    Outcome (List Nat) :=
  get_argument_loop cfg count.toNat 0 esp arg s

/-- Assignment `f->eax = v`. -/
def set_eax (v : Nat) (s : State) : State :=
  emit (Event.store_eax v) { s with frame := { s.frame with eax := v } }

/-- Element `arg[i]` of the local array of the dispatcher. -/
def arg_at (arg : List Nat) (i : Nat) : Nat := arg.getD i 0

/-- The local array `uint32_t arg[3]` of the dispatcher before it is filled. -/
def arg_buffer : List Nat := [0, 0, 0]

/-- `syscall_handler (f)`, the frame `f` being `frame` of the state. -/
def syscall_handler (cfg : Config) (a : Collab) (s : State) : Outcome Unit :=
  let esp := s.frame.esp
  match load32 s.frame.esp s with
  | (number, s0) =>
  let arg := arg_buffer
  match cfg.syscall_nr number with
  | some Sysno.SYS_HALT => halt s0
  | some Sysno.SYS_EXIT =>
    (get_argument cfg esp arg 1 s0).bind fun arg s1 =>
      Outcome.exited (exit (to_int32 (arg_at arg 0)) s1)
  | some Sysno.SYS_EXEC =>
    (get_argument cfg esp arg 1 s0).bind fun arg s1 =>
      (exec a (arg_at arg 0) s1).bind fun r s2 => Outcome.ret () (set_eax (to_uint32 r) s2)
  | some Sysno.SYS_WAIT =>
    (get_argument cfg esp arg 1 s0).bind fun arg s1 =>
      (wait a (to_int32 (arg_at arg 0)) s1).bind fun r s2 =>
        Outcome.ret () (set_eax (to_uint32 r) s2)
  | some Sysno.SYS_CREATE =>
    (get_argument cfg esp arg 2 s0).bind fun arg s1 =>
      if arg_at arg 0 = 0 then Outcome.exited (exit (-1) s1)
      else (create a (arg_at arg 0) (arg_at arg 1) s1).bind fun r s2 =>
        Outcome.ret () (set_eax (if r then 1 else 0) s2)
  | some Sysno.SYS_REMOVE =>
    (get_argument cfg esp arg 1 s0).bind fun arg s1 =>
      if arg_at arg 0 = 0 then Outcome.exited (exit (-1) s1)
      else (remove a (arg_at arg 0) s1).bind fun r s2 =>
        Outcome.ret () (set_eax (if r then 1 else 0) s2)
  | some Sysno.SYS_OPEN =>
    (get_argument cfg esp arg 1 s0).bind fun arg s1 =>
      if arg_at arg 0 = 0 then Outcome.exited (exit (-1) s1)
      else (open_ a (arg_at arg 0) s1).bind fun r s2 =>
        Outcome.ret () (set_eax (to_uint32 r) s2)
  | some Sysno.SYS_CLOSE =>
    (get_argument cfg esp arg 1 s0).bind fun arg s1 => close (to_int32 (arg_at arg 0)) s1
  | some Sysno.SYS_FILESIZE =>
    (get_argument cfg esp arg 1 s0).bind fun arg s1 =>
      (filesize a (to_int32 (arg_at arg 0)) s1).bind fun r s2 =>
        Outcome.ret () (set_eax (to_uint32 r) s2)
  | some Sysno.SYS_READ =>
    (get_argument cfg esp arg 3 s0).bind fun arg s1 =>
      (read cfg a (to_int32 (arg_at arg 0)) (arg_at arg 1) (arg_at arg 2) s1).bind fun r s2 =>
        Outcome.ret () (set_eax (to_uint32 r) s2)
  | some Sysno.SYS_WRITE =>
    (get_argument cfg esp arg 3 s0).bind fun arg s1 =>
      (write cfg a (to_int32 (arg_at arg 0)) (arg_at arg 1) (arg_at arg 2) s1).bind fun r s2 =>
        Outcome.ret () (set_eax (to_uint32 r) s2)
  | some Sysno.SYS_SEEK =>
    (get_argument cfg esp arg 2 s0).bind fun arg s1 =>
      seek (to_int32 (arg_at arg 0)) (arg_at arg 1) s1
  | some Sysno.SYS_TELL =>
    (get_argument cfg esp arg 1 s0).bind fun arg s1 =>
      (tell a (to_int32 (arg_at arg 0)) s1).bind fun r s2 => Outcome.ret () (set_eax r s2)
  | some Sysno.SYS_FIBONACCI =>
    (get_argument cfg esp arg 1 s0).bind fun arg s1 =>
      (fibonacci (to_int32 (arg_at arg 0)) s1).bind fun r s2 =>
        Outcome.ret () (set_eax (to_uint32 r) s2)
  | some Sysno.SYS_SUM_OF_FOUR_INT =>
    (get_argument cfg esp arg 4 s0).bind fun arg s1 =>
      (sum_of_four_int (to_int32 (arg_at arg 0)) (to_int32 (arg_at arg 1))
        (to_int32 (arg_at arg 2)) (to_int32 (arg_at arg 3)) s1).bind fun r s2 =>
        Outcome.ret () (set_eax (to_uint32 r) s2)
  | none => Outcome.killed (emit Event.thread_exit s0)

/-- Handles held in the slots `i, i + 1, ..., i + n - 1` of the table of `t`,
in ascending slot order, one entry for each slot that is not empty. -/
def held (t : thread) (i n : Nat) : List Handle :=
  (List.range' i n).filterMap fun (k : Nat) => (slot t (k : Int)).join

/-- Handles held in the slots `3 .. 130`. -/
def open_handles (t : thread) : List Handle := held t 3 128

/-- The reserved slots 0, 1 and 2 are empty. -/
def reserved_empty (t : thread) : Prop := ∀ i : Int, 0 ≤ i → i < 3 → slot t i = some none

/-- A thread with the handles `100 + i` in the slots `lo ≤ i < hi` and all
other slots empty. -/
def sample_thread (lo hi : Nat) : thread :=
  { name := "prog", exit_status := 0,
    file_list := fun j => if lo ≤ j.val ∧ j.val < hi then some (100 + j.val) else none }

/-- A state of the thread `t` with the stack pointer `esp`, memory `mem` and
console input `input`; the filesystem has open what `live` lists. -/
def sample_state (t : thread) (esp : Nat) (mem input : Nat → Nat) (live : List Handle) : State :=
  { cur := t, frame := { esp := esp, eax := 0 }, file_lock := false, mem := mem,
    files := fun _ => { inode := 0, pos := 0, deny_write := false },
    live := live, input := input, input_pos := 0, trace := [] }

/-- A configuration for the instances: the split at 3 GiB and a numbering of the
calls. -/
def sample_config : Config :=
  { PHYS_BASE := 3221225472,
    syscall_nr := fun n =>
      match n with
      | 0 => some Sysno.SYS_HALT | 1 => some Sysno.SYS_EXIT | 2 => some Sysno.SYS_EXEC
      | 3 => some Sysno.SYS_WAIT | 4 => some Sysno.SYS_CREATE | 5 => some Sysno.SYS_REMOVE
      | 6 => some Sysno.SYS_OPEN | 7 => some Sysno.SYS_FILESIZE | 8 => some Sysno.SYS_READ
      | 9 => some Sysno.SYS_WRITE | 10 => some Sysno.SYS_SEEK | 11 => some Sysno.SYS_TELL
      | 12 => some Sysno.SYS_CLOSE | 13 => some Sysno.SYS_FIBONACCI
      | 14 => some Sysno.SYS_SUM_OF_FOUR_INT | _ => none }

/-- Collaborator answers: every call succeeds, `filesys_open` yields `h`. -/
def sample_collab (h : Option Handle) : Collab :=
  { process_execute := 7, process_wait := 0, filesys_create := true, filesys_remove := true,
    filesys_open := h, strcmp := 1, file_read := 0, file_read_data := fun _ => 0,
    file_write := 0, file_length := 0, file_tell := 0 }

/-- A sequence of calls of `open`, one for each path with the answers of the
collaborators during that call: the descriptors returned, in order, when every
call returns. -/
def open_many : List (Nat × Collab) → State → Option (List Int × State)
  | [], s => some ([], s)
  | (path, a) :: rest, s =>
    match open_ a path s with
    | Outcome.ret r s1 =>
      match open_many rest s1 with
      | some (rs, s2) => some (r :: rs, s2)
      | none => none
    | _ => none

/-- The state in which `open` leaves its loop after it stored `f` in slot `k`. -/
def open_installed (a : Collab) (f : Handle) (k : Int) (s : State) : State :=
  { (if a.strcmp = 0 then file_deny_write f s else s) with
    cur := set_slot (if a.strcmp = 0 then file_deny_write f s else s).cur k (some f) }

/-- The state `s` after the events `es` when nothing but the trace changes. -/
def with_events (es : List Event) (s : State) : State := { s with trace := s.trace ++ es }

/-- Address of the `i`-th word above the stack pointer `esp`. -/
def arg_addr (esp i : Nat) : Nat := (esp + 4 * i) % WORD

/-- The reads of the argument words `i + 1, ..., i + n` above `esp`. -/
def arg_loads (esp i n : Nat) : List Event :=
  (List.range' (i + 1) n).map fun (k : Nat) => Event.load32 (arg_addr esp k)

/-- The descriptor `fd` maps to a live handle of the thread `t`. -/
def is_open (t : thread) (fd : Int) : Bool :=
  match slot t fd with
  | some (some _) => true
  | _ => false

/-- A state for the dispatcher: the word at `esp = 1000` is `number` and the
four words above it are `w1`, `w2`, `w3`, `w4` (each below 256). -/
def call_state (t : thread) (number w1 w2 w3 w4 : Nat) : State :=
  sample_state t 1000
    (fun x => if x = 1000 then number else if x = 1004 then w1 else if x = 1008 then w2
      else if x = 1012 then w3 else if x = 1016 then w4 else 0)
    (fun _ => 0) (open_handles t)

/-- The event is a call of `filesys_create`, `filesys_remove` or `filesys_open`. -/
def Event.is_path_call : Event → Bool
  | Event.filesys_create _ _ => true
  | Event.filesys_remove _ => true
  | Event.filesys_open _ => true
  | _ => false

/-- The events of an execution that started in `s` and is now in `s1`. -/
def events_since (s s1 : State) : List Event := s1.trace.drop s.trace.length

/-- The first `n` characters the console delivers from position `p` on. -/
def console_chars (input : Nat → Nat) (p n : Nat) : List Nat :=
  (List.range n).map fun (j : Nat) => input (p + j) % 256

/-- Index of the first null byte among the first `n` characters delivered from
position `p` on; `n` when none of them is null. -/
def first_null (input : Nat → Nat) (p n : Nat) : Nat :=
  (console_chars input p n).findIdx fun c => c == 0

/-- Number of characters `read` takes from the console when it is asked for
`n`: up to and including the first null byte. -/
def consumed (input : Nat → Nat) (p n : Nat) : Nat :=
  if first_null input p n < n then first_null input p n + 1 else n

/-- Events of `c` rounds of the console loop of `read` that starts with its
counter at `i` and the console at position `p`: round `m` takes one character
and stores it at `buffer + i + m`. -/
def console_events (buffer : Nat) (input : Nat → Nat) (i p c : Nat) : List Event :=
  ((List.range c).map fun (m : Nat) =>
    [Event.input_getc, Event.store8 ((buffer + (i + m)) % WORD) (input (p + m) % 256),
      Event.load8 ((buffer + (i + m)) % WORD)]).flatten

/-- The number of argument words of each call in the interface table of the
specification. -/
def nargs : Sysno → Nat
  | Sysno.SYS_HALT => 0
  | Sysno.SYS_EXIT => 1
  | Sysno.SYS_EXEC => 1
  | Sysno.SYS_WAIT => 1
  | Sysno.SYS_CREATE => 2
  | Sysno.SYS_REMOVE => 1
  | Sysno.SYS_OPEN => 1
  | Sysno.SYS_CLOSE => 1
  | Sysno.SYS_FILESIZE => 1
  | Sysno.SYS_READ => 3
  | Sysno.SYS_WRITE => 3
  | Sysno.SYS_SEEK => 2
  | Sysno.SYS_TELL => 1
  | Sysno.SYS_FIBONACCI => 1
  | Sysno.SYS_SUM_OF_FOUR_INT => 4

/-- The dispatch the specification describes for the call `x` once its argument
words `w1`, `w2`, `w3`, `w4` (in stack order) are fetched: the matching
operation on the words in declared order, then the store of its result in the
return-value slot for the calls that have one. -/
def perform (cfg : Config) (a : Collab) (x : Sysno) (w1 w2 w3 w4 : Nat) (s : State) :
    Outcome Unit :=
  match x with
  | Sysno.SYS_HALT => halt s
  | Sysno.SYS_EXIT => Outcome.exited (exit (to_int32 w1) s)
  | Sysno.SYS_EXEC =>
    (exec a w1 s).bind fun r s2 => Outcome.ret () (set_eax (to_uint32 r) s2)
  | Sysno.SYS_WAIT =>
    (wait a (to_int32 w1) s).bind fun r s2 => Outcome.ret () (set_eax (to_uint32 r) s2)
  | Sysno.SYS_CREATE =>
    if w1 = 0 then Outcome.exited (exit (-1) s)
    else (create a w1 w2 s).bind fun r s2 => Outcome.ret () (set_eax (if r then 1 else 0) s2)
  | Sysno.SYS_REMOVE =>
    if w1 = 0 then Outcome.exited (exit (-1) s)
    else (remove a w1 s).bind fun r s2 => Outcome.ret () (set_eax (if r then 1 else 0) s2)
  | Sysno.SYS_OPEN =>
    if w1 = 0 then Outcome.exited (exit (-1) s)
    else (open_ a w1 s).bind fun r s2 => Outcome.ret () (set_eax (to_uint32 r) s2)
  | Sysno.SYS_CLOSE => close (to_int32 w1) s
  | Sysno.SYS_FILESIZE =>
    (filesize a (to_int32 w1) s).bind fun r s2 => Outcome.ret () (set_eax (to_uint32 r) s2)
  | Sysno.SYS_READ =>
    (read cfg a (to_int32 w1) w2 w3 s).bind fun r s2 =>
      Outcome.ret () (set_eax (to_uint32 r) s2)
  | Sysno.SYS_WRITE =>
    (write cfg a (to_int32 w1) w2 w3 s).bind fun r s2 =>
      Outcome.ret () (set_eax (to_uint32 r) s2)
  | Sysno.SYS_SEEK => seek (to_int32 w1) w2 s
  | Sysno.SYS_TELL => (tell a (to_int32 w1) s).bind fun r s2 => Outcome.ret () (set_eax r s2)
  | Sysno.SYS_FIBONACCI =>
    (fibonacci (to_int32 w1) s).bind fun r s2 => Outcome.ret () (set_eax (to_uint32 r) s2)
  | Sysno.SYS_SUM_OF_FOUR_INT =>
    (sum_of_four_int (to_int32 w1) (to_int32 w2) (to_int32 w3) (to_int32 w4) s).bind
      fun r s2 => Outcome.ret () (set_eax (to_uint32 r) s2)

/-- The property `P` holds of the state in which the execution ends, when it
ends in a state. -/
def Outcome.ends_with {α : Type} (P : State → Prop) (o : Outcome α) : Prop :=
  ∀ s : State, o.state? = some s → P s

/-- The `n`-th term of the classic recurrence of the specification: the first
and the second term are 1, every later term is the sum of the two before it
(1, 1, 2, 3, 5, ...). -/
def classic_term : Nat → Nat
  | 0 => 0
  | 1 => 1
  | n + 2 => classic_term (n + 1) + classic_term n

/-- The state `sample_state` in which the `struct file` behind every handle has
its `deny_write` flag set. -/
def denied_state (t : thread) (live : List Handle) : State :=
  { sample_state t 0 (fun _ => 0) (fun _ => 0) live with
    files := fun _ => { inode := 0, pos := 0, deny_write := true } }

/-! ## Basic facts -/

@[simp] theorem emit_cur (e : Event) (s : State) : (emit e s).cur = s.cur := rfl
@[simp] theorem emit_frame (e : Event) (s : State) : (emit e s).frame = s.frame := rfl
@[simp] theorem emit_file_lock (e : Event) (s : State) : (emit e s).file_lock = s.file_lock := rfl
@[simp] theorem emit_mem (e : Event) (s : State) : (emit e s).mem = s.mem := rfl
@[simp] theorem emit_files (e : Event) (s : State) : (emit e s).files = s.files := rfl
@[simp] theorem emit_live (e : Event) (s : State) : (emit e s).live = s.live := rfl
@[simp] theorem emit_input (e : Event) (s : State) : (emit e s).input = s.input := rfl
@[simp] theorem emit_input_pos (e : Event) (s : State) : (emit e s).input_pos = s.input_pos := rfl
@[simp] theorem emit_trace (e : Event) (s : State) : (emit e s).trace = s.trace ++ [e] := rfl

theorem slot_in (t : thread) (fd : Int) (h : 0 ≤ fd ∧ fd < 131) :
    slot t fd = some (t.file_list ⟨fd.toNat, by omega⟩) := by
  unfold slot; rw [dif_pos h]

theorem slot_out (t : thread) (fd : Int) (h : ¬ (0 ≤ fd ∧ fd < 131)) : slot t fd = none := by
  unfold slot; rw [dif_neg h]

theorem slot_set_slot_same (t : thread) (fd : Int) (v : Option Handle) (h : 0 ≤ fd ∧ fd < 131) :
    slot (set_slot t fd v) fd = some v := by
  rw [slot_in _ _ h]
  simp only [set_slot]
  rw [if_pos]
  simp only [Int.toNat_of_nonneg h.1]

theorem slot_set_slot_other (t : thread) (fd j : Int) (v : Option Handle) (h : j ≠ fd) :
    slot (set_slot t fd v) j = slot t j := by
  by_cases hj : 0 ≤ j ∧ j < 131
  · rw [slot_in _ _ hj, slot_in _ _ hj]
    simp only [set_slot]
    rw [if_neg]
    simp only [Int.toNat_of_nonneg hj.1]
    exact h
  · rw [slot_out _ _ hj, slot_out _ _ hj]

@[simp] theorem close_live_trace (fd : Int) (h : Handle) (s : State) :
    (close_live fd h s).trace = s.trace ++ [Event.file_close h] := rfl
@[simp] theorem close_live_live (fd : Int) (h : Handle) (s : State) :
    (close_live fd h s).live = s.live.erase h := rfl
@[simp] theorem close_live_cur (fd : Int) (h : Handle) (s : State) :
    (close_live fd h s).cur = set_slot s.cur fd none := rfl
@[simp] theorem close_live_frame (fd : Int) (h : Handle) (s : State) :
    (close_live fd h s).frame = s.frame := rfl
@[simp] theorem close_live_file_lock (fd : Int) (h : Handle) (s : State) :
    (close_live fd h s).file_lock = s.file_lock := rfl
@[simp] theorem set_slot_exit_status (t : thread) (fd : Int) (v : Option Handle) :
    (set_slot t fd v).exit_status = t.exit_status := rfl
@[simp] theorem set_slot_name (t : thread) (fd : Int) (v : Option Handle) :
    (set_slot t fd v).name = t.name := rfl

theorem held_succ (t : thread) (i n : Nat) :
    held t i (n + 1) = ((slot t (i : Int)).join).toList ++ held t (i + 1) n := by
  unfold held
  rw [List.range'_succ, List.filterMap_cons]
  cases h : (slot t (i : Int)).join <;> simp

theorem held_congr (t u : thread) (i n : Nat)
    (h : ∀ k : Nat, i ≤ k → k < i + n → slot t (k : Int) = slot u (k : Int)) :
    held t i n = held u i n := by
  unfold held
  apply List.filterMap_congr
  intro k hk
  rw [List.mem_range'_1] at hk
  rw [h k hk.1 hk.2]

/-- What the closing loop of `exit` does to the state. -/
theorem exit_loop_spec (n : Nat) : ∀ (i : Nat) (s : State), i + n ≤ 131 →
    (exit_loop n (i : Int) s).trace = s.trace ++ (held s.cur i n).map Event.file_close ∧
    (exit_loop n (i : Int) s).live = (held s.cur i n).foldl List.erase s.live ∧
    (∀ j : Int, (i : Int) ≤ j → j < (i : Int) + n → slot (exit_loop n (i : Int) s).cur j = some none) ∧
    (∀ j : Int, j < (i : Int) ∨ (i : Int) + n ≤ j →
      slot (exit_loop n (i : Int) s).cur j = slot s.cur j) ∧
    (exit_loop n (i : Int) s).cur.exit_status = s.cur.exit_status ∧
    (exit_loop n (i : Int) s).cur.name = s.cur.name ∧
    (exit_loop n (i : Int) s).frame = s.frame ∧
    (exit_loop n (i : Int) s).file_lock = s.file_lock := by
  induction n with
  | zero =>
    intro i s _
    refine ⟨by simp [exit_loop, held], by simp [exit_loop, held], ?_, ?_, rfl, rfl, rfl, rfl⟩
    · intro j h1 h2; simp at h2; omega
    · intro j _; rfl
  | succ n ih =>
    intro i s hin
    have hi : (0 : Int) ≤ (i : Int) ∧ (i : Int) < 131 := by omega
    have hcast : ((i : Int) + 1) = ((i + 1 : Nat) : Int) := by push_cast; rfl
    rw [held_succ]
    cases hs : slot s.cur (i : Int) with
    | none => rw [slot_in _ _ hi] at hs; exact Option.noConfusion hs
    | some v =>
      cases v with
      | none =>
        have hstep : exit_loop (n + 1) (i : Int) s = exit_loop n ((i + 1 : Nat) : Int) s := by
          rw [exit_loop, hs, hcast]
        rw [hstep]
        obtain ⟨h1, h2, h3, h4, h5, h6, h7, h8⟩ := ih (i + 1) s (by omega)
        refine ⟨by simpa using h1, by simpa using h2, ?_, ?_, h5, h6, h7, h8⟩
        · intro j hj1 hj2
          by_cases hji : j = (i : Int)
          · rw [h4 j (by omega), hji, hs]
          · exact h3 j (by push_cast; omega) (by push_cast; push_cast at hj2; omega)
        · intro j hj
          exact h4 j (by push_cast; push_cast at hj; omega)
      | some h =>
        have hstep : exit_loop (n + 1) (i : Int) s
            = exit_loop n ((i + 1 : Nat) : Int) (close_live (i : Int) h s) := by
          rw [exit_loop, hs, hcast]
        rw [hstep]
        obtain ⟨h1, h2, h3, h4, h5, h6, h7, h8⟩ :=
          ih (i + 1) (close_live (i : Int) h s) (by omega)
        have hheld : held (close_live (i : Int) h s).cur (i + 1) n = held s.cur (i + 1) n := by
          apply held_congr
          intro k hk1 _
          rw [close_live_cur, slot_set_slot_other]
          omega
        rw [hheld] at h1 h2
        refine ⟨by simpa using h1, by simpa using h2, ?_, ?_, by simpa using h5,
          by simpa using h6, by simpa using h7, by simpa using h8⟩
        · intro j hj1 hj2
          by_cases hji : j = (i : Int)
          · rw [h4 j (by omega), hji, close_live_cur, slot_set_slot_same _ _ _ hi]
          · exact h3 j (by push_cast; omega) (by push_cast; push_cast at hj2; omega)
        · intro j hj
          rw [h4 j (by push_cast; push_cast at hj; omega), close_live_cur, slot_set_slot_other]
          push_cast at hj; omega

theorem foldl_erase_perm : ∀ (hs l : List Handle), l.Perm hs → hs.foldl List.erase l = []
  | [], l, h => by simpa using h
  | a :: hs, l, h => by
    rw [List.foldl_cons]
    apply foldl_erase_perm hs
    have := h.erase a
    simpa using this

/-- What `exit` does to the state. -/
theorem exit_spec (status : Int) (s : State) :
    (exit status s).cur.exit_status = status ∧
    (exit status s).trace
      = s.trace ++ Event.printf_exit s.cur.name status
          :: ((open_handles s.cur).map Event.file_close ++ [Event.thread_exit]) ∧
    (∀ i : Int, 3 ≤ i → i < 131 → slot (exit status s).cur i = some none) ∧
    (∀ i : Int, i < 3 ∨ 131 ≤ i → slot (exit status s).cur i = slot s.cur i) ∧
    (exit status s).live = (open_handles s.cur).foldl List.erase s.live ∧
    (exit status s).frame = s.frame ∧
    (exit status s).file_lock = s.file_lock := by
  obtain ⟨h1, h2, h3, h4, h5, _, h7, h8⟩ := exit_loop_spec 128 3
    (set_exit_status status (emit (Event.printf_exit s.cur.name status) s)) (by norm_num)
  have hheld : held (set_exit_status status (emit (Event.printf_exit s.cur.name status) s)).cur
      3 128 = held s.cur 3 128 := rfl
  have hcast : ((3 : Nat) : Int) = 3 := rfl
  rw [hheld] at h1 h2
  rw [hcast] at h1 h2 h3 h4 h5 h7 h8
  refine ⟨?_, ?_, ?_, ?_, ?_, ?_, ?_⟩
  · exact h5
  · show (exit_loop 128 3 _).trace ++ [Event.thread_exit] = _
    rw [h1]
    simp [open_handles, set_exit_status]
  · intro i hi1 hi2
    exact h3 i hi1 (by push_cast; omega)
  · intro i hi
    exact h4 i (by push_cast; omega)
  · exact h2
  · exact h7
  · exact h8

theorem file_list_of_slot (t : thread) (j : Fin 131) (v : Option Handle)
    (h : slot t ((j.val : Nat) : Int) = some v) : t.file_list j = v := by
  rw [slot_in _ _ (by omega)] at h
  have hj : (⟨(((j.val : Nat) : Int)).toNat, by omega⟩ : Fin 131) = j := by
    apply Fin.ext; simp
  rw [hj] at h
  exact Option.some.inj h

/-! ## Process exit -/

/-- C4: `exit (status)` records `status` as the exit status of the process,
prints the notice, then releases with `file_close` the handle of each non-empty
slot of 3..130 once, in ascending slot order, and last calls `thread_exit`;
afterwards every slot of 3..130 is empty, the whole table is empty when the
reserved slots 0..2 were, and when the open handles of the filesystem were those
of the table no handle is left open. -/
theorem exit_releases_every_descriptor (status : Int) (s : State) :
    (exit status s).cur.exit_status = status ∧
    (exit status s).trace
      = s.trace ++ Event.printf_exit s.cur.name status
          :: ((open_handles s.cur).map Event.file_close ++ [Event.thread_exit]) ∧
    (∀ i : Int, 3 ≤ i → i < 131 → slot (exit status s).cur i = some none) ∧
    (reserved_empty s.cur → ∀ j : Fin 131, (exit status s).cur.file_list j = none) ∧
    (s.live.Perm (open_handles s.cur) → (exit status s).live = []) := by
  obtain ⟨h1, h2, h3, h4, h5, _, _⟩ := exit_spec status s
  refine ⟨h1, h2, h3, ?_, ?_⟩
  · intro hres j
    apply file_list_of_slot
    by_cases hj : (3 : Int) ≤ ((j.val : Nat) : Int)
    · exact h3 _ hj (by omega)
    · rw [h4 _ (by omega)]
      exact hres _ (by omega) (by omega)
  · intro hperm
    rw [h5]
    exact foldl_erase_perm _ _ hperm

/-- C4, instance: a process with the five descriptors 3..7 open exits with
status 0; its table is then empty and the filesystem has no open handle. -/
theorem exit_releases_every_descriptor_witness :
    open_handles (sample_thread 3 8) = [103, 104, 105, 106, 107] ∧
    (∀ j : Fin 131,
      (exit 0 (sample_state (sample_thread 3 8) 0 (fun _ => 0) (fun _ => 0)
        [103, 104, 105, 106, 107])).cur.file_list j = none) ∧
    (exit 0 (sample_state (sample_thread 3 8) 0 (fun _ => 0) (fun _ => 0)
      [103, 104, 105, 106, 107])).live = [] := by
  have hopen : open_handles (sample_thread 3 8) = [103, 104, 105, 106, 107] := by decide
  have hres : reserved_empty (sample_thread 3 8) := by
    intro i h0 h3
    rw [slot_in _ _ (by omega)]
    have : ¬ (3 ≤ i.toNat ∧ i.toNat < 8) := by omega
    simp [sample_thread, this]
  obtain ⟨_, _, _, h4, h5⟩ := exit_releases_every_descriptor 0
    (sample_state (sample_thread 3 8) 0 (fun _ => 0) (fun _ => 0) [103, 104, 105, 106, 107])
  have hperm : (sample_state (sample_thread 3 8) 0 (fun _ => 0) (fun _ => 0)
      [103, 104, 105, 106, 107]).live.Perm (open_handles (sample_state (sample_thread 3 8) 0
        (fun _ => 0) (fun _ => 0) [103, 104, 105, 106, 107]).cur) := by
    show List.Perm [103, 104, 105, 106, 107] (open_handles (sample_thread 3 8))
    rw [hopen]
  exact ⟨hopen, h4 hres, h5 hperm⟩

/-! ## Descriptor allocation -/

@[simp] theorem lock_acquire_cur (s : State) : (lock_acquire s).cur = s.cur := rfl
@[simp] theorem lock_release_cur (s : State) : (lock_release s).cur = s.cur := rfl
@[simp] theorem file_deny_write_cur (h : Handle) (s : State) :
    (file_deny_write h s).cur = s.cur := rfl

theorem open_installed_cur (a : Collab) (f : Handle) (k : Int) (s : State) :
    (open_installed a f k s).cur = set_slot s.cur k (some f) := by
  unfold open_installed
  split <;> rfl

/-- The scan of `open` stops at the first empty slot. -/
theorem open_loop_found (a : Collab) (f : Handle) (n : Nat) :
    ∀ (i k : Nat) (s : State), i ≤ k → k < i + n → i + n ≤ 131 →
      slot s.cur (k : Int) = some none →
      (∀ j : Nat, i ≤ j → j < k → slot s.cur (j : Int) ≠ some none) →
      open_loop a f n (i : Int) s = some ((k : Int), open_installed a f (k : Int) s) := by
  induction n with
  | zero => intro i k s h1 h2; omega
  | succ n ih =>
    intro i k s h1 h2 h3 hk hlow
    have hi : (0 : Int) ≤ (i : Int) ∧ (i : Int) < 131 := by omega
    by_cases hik : i = k
    · subst hik
      rw [open_loop, hk]
      rfl
    · have hne := hlow i (le_refl i) (by omega)
      cases hs : slot s.cur (i : Int) with
      | none => rw [slot_in _ _ hi] at hs; exact Option.noConfusion hs
      | some v =>
        cases v with
        | none => exact absurd hs hne
        | some g =>
          rw [open_loop, hs]
          have hcast : ((i : Int) + 1) = ((i + 1 : Nat) : Int) := by push_cast; rfl
          simp only [hcast]
          exact ih (i + 1) k s (by omega) (by omega) (by omega) hk
            (fun j hj1 hj2 => hlow j (by omega) hj2)

/-- The scan of `open` finds nothing when every slot it visits is occupied. -/
theorem open_loop_full (a : Collab) (f : Handle) (n : Nat) :
    ∀ (i : Nat) (s : State), i + n ≤ 131 →
      (∀ j : Nat, i ≤ j → j < i + n → slot s.cur (j : Int) ≠ some none) →
      open_loop a f n (i : Int) s = some (-1, s) := by
  induction n with
  | zero => intro i s _ _; rfl
  | succ n ih =>
    intro i s h3 hocc
    have hi : (0 : Int) ≤ (i : Int) ∧ (i : Int) < 131 := by omega
    have hne := hocc i (le_refl i) (by omega)
    cases hs : slot s.cur (i : Int) with
    | none => rw [slot_in _ _ hi] at hs; exact Option.noConfusion hs
    | some v =>
      cases v with
      | none => exact absurd hs hne
      | some g =>
        rw [open_loop, hs]
        have hcast : ((i : Int) + 1) = ((i + 1 : Nat) : Int) := by push_cast; rfl
        simp only [hcast]
        exact ih (i + 1) s (by omega) (fun j hj1 hj2 => hocc j (by omega) (by omega))

/-- The result of a successful `open` when slot `k` is the lowest empty one. -/
theorem open_at_lowest (a : Collab) (path : Nat) (s : State) (f : Handle) (k : Nat)
    (hopen : a.filesys_open = some f) (h3 : 3 ≤ k) (h131 : k < 131)
    (hk : slot s.cur (k : Int) = some none)
    (hlow : ∀ j : Nat, 3 ≤ j → j < k → slot s.cur (j : Int) ≠ some none) :
    open_ a path s = Outcome.ret (k : Int)
      (lock_release (open_installed a f (k : Int)
        (emit (Event.filesys_open path)
          { (lock_acquire s) with live := f :: (lock_acquire s).live }))) := by
  have hloop := open_loop_found a f 128 3 k
    (emit (Event.filesys_open path) { (lock_acquire s) with live := f :: (lock_acquire s).live })
    h3 (by omega) (by norm_num) hk hlow
  have hcast : ((3 : Nat) : Int) = 3 := rfl
  rw [hcast] at hloop
  unfold open_ filesys_open
  simp only [hopen]
  rw [hloop]

/-- Among the slots 3..130 an empty one with the lowest index exists as soon as
one is empty. -/
theorem lowest_empty (t : thread) (h : ∃ i : Int, 3 ≤ i ∧ i < 131 ∧ slot t i = some none) :
    ∃ k : Nat, 3 ≤ k ∧ k < 131 ∧ slot t (k : Int) = some none ∧
      ∀ j : Nat, 3 ≤ j → j < k → slot t (j : Int) ≠ some none := by
  have hex : ∃ k : Nat, 3 ≤ k ∧ k < 131 ∧ slot t (k : Int) = some none := by
    obtain ⟨i, h1, h2, h3⟩ := h
    refine ⟨i.toNat, by omega, by omega, ?_⟩
    rw [Int.toNat_of_nonneg (by omega)]
    exact h3
  classical
  refine ⟨Nat.find hex, (Nat.find_spec hex).1, (Nat.find_spec hex).2.1,
    (Nat.find_spec hex).2.2, ?_⟩
  intro j hj3 hjk hj
  exact Nat.find_min hex hjk ⟨hj3, by have := (Nat.find_spec hex).2.1; omega, hj⟩

theorem open_at_lowest_cur (a : Collab) (path : Nat) (s : State) (f : Handle) (k : Int) :
    (lock_release (open_installed a f k
        (emit (Event.filesys_open path)
          { (lock_acquire s) with live := f :: (lock_acquire s).live }))).cur
      = set_slot s.cur k (some f) := by
  rw [lock_release_cur, open_installed_cur]
  rfl

/-- Successive successful calls of `open` on a table whose slots `3 .. 2 + m`
are occupied and whose slots `3 + m .. 130` are empty. -/
theorem open_many_from : ∀ (calls : List (Nat × Collab)) (m : Nat) (s : State),
    m + calls.length ≤ 128 →
    (∀ c ∈ calls, c.2.filesys_open ≠ none) →
    (∀ j : Nat, 3 ≤ j → j < 3 + m → slot s.cur (j : Int) ≠ some none) →
    (∀ j : Nat, 3 + m ≤ j → j < 131 → slot s.cur (j : Int) = some none) →
    ∃ s1, open_many calls s
      = some ((List.range' (3 + m) calls.length).map (fun k : Nat => (k : Int)), s1)
  | [], m, s, _, _, _, _ => ⟨s, rfl⟩
  | (path, a) :: rest, m, s, hlen, hok, hocc, hfree => by
    have hne : a.filesys_open ≠ none := hok (path, a) (List.mem_cons_self _ _)
    obtain ⟨f, hf⟩ := Option.ne_none_iff_exists'.mp hne
    simp only [List.length_cons] at hlen
    have hstep := open_at_lowest a path s f (3 + m) hf (by omega) (by omega)
      (hfree (3 + m) (le_refl _) (by omega)) hocc
    obtain ⟨s2, hs2⟩ := open_many_from rest (m + 1) _ (by omega)
      (fun c hc => hok c (List.mem_cons_of_mem _ hc))
      (fun j hj1 hj2 => by
        rw [open_at_lowest_cur a path s f ((3 + m : Nat) : Int)]
        by_cases hj : j = 3 + m
        · subst hj
          rw [slot_set_slot_same _ _ _ (by omega)]
          simp
        · rw [slot_set_slot_other _ _ _ _ (by omega)]
          exact hocc j hj1 (by omega))
      (fun j hj1 hj2 => by
        rw [open_at_lowest_cur a path s f ((3 + m : Nat) : Int)]
        rw [slot_set_slot_other _ _ _ _ (by omega)]
        exact hfree j (by omega) hj2)
    refine ⟨s2, ?_⟩
    rw [open_many, hstep]
    simp only []
    rw [show 3 + (m + 1) = 3 + m + 1 from rfl] at hs2
    rw [hs2, List.length_cons, List.range'_succ, List.map_cons]

theorem close_of_live (fd : Int) (h : Handle) (s : State) (hs : slot s.cur fd = some (some h)) :
    close fd s = Outcome.ret () (close_live fd h s) := by
  unfold close
  rw [hs]

theorem close_of_empty (fd : Int) (s : State) (hs : slot s.cur fd = some none) :
    close fd s = Outcome.exited (exit (-1) s) := by
  unfold close
  rw [hs]

/-- C1: a successful `open` on a table with an empty slot among 3..130 returns
the lowest index of such a slot, stores the new handle there and changes no
other slot; so `N ≤ 128` successful calls from a table whose slots 3..130 are
empty return 3, 4, ..., N + 2 in this order, and a successful call after
`close (k)` returns the lowest descriptor that is then closed, which is `k` when
all descriptors below `k` are open. -/
theorem open_allocates_lowest_empty_slot :
    (∀ (a : Collab) (path : Nat) (s : State) (f : Handle),
      a.filesys_open = some f →
      (∃ i : Int, 3 ≤ i ∧ i < 131 ∧ slot s.cur i = some none) →
      ∃ (i : Int) (s1 : State), open_ a path s = Outcome.ret i s1 ∧ 3 ≤ i ∧ i < 131 ∧
        slot s.cur i = some none ∧
        (∀ j : Int, 3 ≤ j → j < i → slot s.cur j ≠ some none) ∧
        slot s1.cur i = some (some f) ∧
        ∀ j : Int, j ≠ i → slot s1.cur j = slot s.cur j) ∧
    (∀ (calls : List (Nat × Collab)) (s : State),
      calls.length ≤ 128 →
      (∀ c ∈ calls, c.2.filesys_open ≠ none) →
      (∀ j : Int, 3 ≤ j → j < 131 → slot s.cur j = some none) →
      ∃ s1, open_many calls s
        = some ((List.range' 3 calls.length).map (fun k : Nat => (k : Int)), s1)) ∧
    (∀ (a : Collab) (path : Nat) (s : State) (f : Handle) (k : Int) (h : Handle),
      a.filesys_open = some f → 3 ≤ k → k < 131 → slot s.cur k = some (some h) →
      ∃ (s1 : State) (i : Int) (s2 : State),
        close k s = Outcome.ret () s1 ∧ open_ a path s1 = Outcome.ret i s2 ∧
        3 ≤ i ∧ i ≤ k ∧ slot s1.cur i = some none ∧
        (∀ j : Int, 3 ≤ j → j < i → slot s1.cur j ≠ some none) ∧
        slot s2.cur i = some (some f) ∧
        ((∀ j : Int, 3 ≤ j → j < k → slot s.cur j ≠ some none) → i = k)) := by
  have part1 : ∀ (a : Collab) (path : Nat) (s : State) (f : Handle),
      a.filesys_open = some f →
      (∃ i : Int, 3 ≤ i ∧ i < 131 ∧ slot s.cur i = some none) →
      ∃ (i : Int) (s1 : State), open_ a path s = Outcome.ret i s1 ∧ 3 ≤ i ∧ i < 131 ∧
        slot s.cur i = some none ∧
        (∀ j : Int, 3 ≤ j → j < i → slot s.cur j ≠ some none) ∧
        slot s1.cur i = some (some f) ∧
        ∀ j : Int, j ≠ i → slot s1.cur j = slot s.cur j := by
    intro a path s f hf hfree
    obtain ⟨k, hk3, hk131, hk, hlow⟩ := lowest_empty s.cur hfree
    refine ⟨(k : Int), _, open_at_lowest a path s f k hf hk3 hk131 hk hlow, by omega, by omega,
      hk, ?_, ?_, ?_⟩
    · intro j hj3 hjk
      have := hlow j.toNat (by omega) (by omega)
      rwa [Int.toNat_of_nonneg (by omega)] at this
    · rw [open_at_lowest_cur, slot_set_slot_same _ _ _ (by omega)]
    · intro j hj
      rw [open_at_lowest_cur, slot_set_slot_other _ _ _ _ hj]
  refine ⟨part1, ?_, ?_⟩
  · intro calls s hlen hok hempty
    have := open_many_from calls 0 s (by omega) hok (fun j h1 h2 => by omega)
      (fun j h1 h2 => hempty j (by omega) (by omega))
    simpa using this
  · intro a path s f k h hf hk3 hk131 hk
    have hfree : ∃ i : Int, 3 ≤ i ∧ i < 131 ∧ slot (close_live k h s).cur i = some none :=
      ⟨k, hk3, hk131, by rw [close_live_cur, slot_set_slot_same _ _ _ (by omega)]⟩
    obtain ⟨i, s2, ho, hi3, hi131, hi, hlow, hinst, _⟩ := part1 a path (close_live k h s) f hf hfree
    have hik : i ≤ k := by
      by_contra hcon
      exact hlow k hk3 (by omega) (by rw [close_live_cur, slot_set_slot_same _ _ _ (by omega)])
    refine ⟨close_live k h s, i, s2, close_of_live k h s hk, ho, hi3, hik, hi, hlow, hinst, ?_⟩
    intro hbelow
    by_contra hne
    have hlt : i < k := by omega
    apply hbelow i hi3 hlt
    rw [close_live_cur, slot_set_slot_other _ _ _ _ (by omega)] at hi
    exact hi

/-- C1, instance: with descriptors 3 and 4 open, `open` returns 5; three calls
on an empty table return 3, 4, 5; after `close (3)` the next call returns 3. -/
theorem open_allocates_lowest_empty_slot_witness :
    (∃ (i : Int) (s1 : State),
      open_ (sample_collab (some 9)) 0
        (sample_state (sample_thread 3 5) 0 (fun _ => 0) (fun _ => 0) [103, 104])
        = Outcome.ret i s1 ∧ 3 ≤ i ∧ i < 131 ∧
      slot (sample_thread 3 5) i = some none ∧
      (∀ j : Int, 3 ≤ j → j < i → slot (sample_thread 3 5) j ≠ some none) ∧
      slot s1.cur i = some (some 9) ∧
      ∀ j : Int, j ≠ i → slot s1.cur j = slot (sample_thread 3 5) j) ∧
    (open_ (sample_collab (some 9)) 0
      (sample_state (sample_thread 3 5) 0 (fun _ => 0) (fun _ => 0) [103, 104])).value?
      = some 5 ∧
    (∃ s1, open_many [(0, sample_collab (some 9)), (0, sample_collab (some 8)),
        (0, sample_collab (some 7))]
        (sample_state (sample_thread 0 0) 0 (fun _ => 0) (fun _ => 0) [])
      = some ([3, 4, 5], s1)) ∧
    (∃ (s1 : State) (s2 : State),
      close 3 (sample_state (sample_thread 3 5) 0 (fun _ => 0) (fun _ => 0) [103, 104])
        = Outcome.ret () s1 ∧
      open_ (sample_collab (some 9)) 0 s1 = Outcome.ret 3 s2) := by
  have hslot5 : slot (sample_thread 3 5) 5 = some none := by decide
  have hslot3 : slot (sample_thread 3 5) 3 = some (some 103) := by decide
  refine ⟨open_allocates_lowest_empty_slot.1 (sample_collab (some 9)) 0 _ 9 rfl
    ⟨5, by decide, by decide, hslot5⟩, by decide, ?_, ?_⟩
  · have h := open_allocates_lowest_empty_slot.2.1
      [(0, sample_collab (some 9)), (0, sample_collab (some 8)), (0, sample_collab (some 7))]
      (sample_state (sample_thread 0 0) 0 (fun _ => 0) (fun _ => 0) [])
      (by decide) (by intro c hc; simp at hc; rcases hc with h | h | h <;> subst h <;> simp [sample_collab])
      (by intro j h1 h2; rw [slot_in _ _ (by omega)]; simp [sample_state, sample_thread])
    simpa using h
  · obtain ⟨s1, i, s2, hc, ho, hi3, hik, _, _, _, _⟩ :=
      open_allocates_lowest_empty_slot.2.2 (sample_collab (some 9)) 0
        (sample_state (sample_thread 3 5) 0 (fun _ => 0) (fun _ => 0) [103, 104]) 9 3 103 rfl
        (by decide) (by decide) hslot3
    have : i = 3 := by omega
    subst this
    exact ⟨s1, s2, hc, ho⟩

/-! ## Argument fetch -/

theorem with_events_nil (s : State) : with_events [] s = s := by
  simp [with_events]

theorem with_events_emit (es : List Event) (e : Event) (s : State) :
    with_events es (emit e s) = with_events (e :: es) s := by
  simp [with_events, emit]

theorem emit_with_events (es : List Event) (e : Event) (s : State) :
    emit e (with_events es s) = with_events (es ++ [e]) s := by
  simp [with_events, emit]

theorem with_events_with_events (es fs : List Event) (s : State) :
    with_events fs (with_events es s) = with_events (es ++ fs) s := by
  simp [with_events]

@[simp] theorem with_events_mem (es : List Event) (s : State) : (with_events es s).mem = s.mem := rfl
@[simp] theorem with_events_cur (es : List Event) (s : State) : (with_events es s).cur = s.cur := rfl
@[simp] theorem with_events_frame (es : List Event) (s : State) :
    (with_events es s).frame = s.frame := rfl
@[simp] theorem with_events_trace (es : List Event) (s : State) :
    (with_events es s).trace = s.trace ++ es := rfl

theorem arg_addr_succ (esp k : Nat) : (arg_addr esp k + 4) % WORD = arg_addr esp (k + 1) := by
  unfold arg_addr
  rw [Nat.mod_add_mod]
  congr 1

theorem arg_addr_zero (esp : Nat) (h : esp < WORD) : arg_addr esp 0 = esp := by
  unfold arg_addr
  simpa using Nat.mod_eq_of_lt h

theorem arg_loads_succ (esp i n : Nat) :
    arg_loads esp i (n + 1) = Event.load32 (arg_addr esp (i + 1)) :: arg_loads esp (i + 1) n := by
  unfold arg_loads
  rw [List.range'_succ, List.map_cons]

/-- The fetch loop when every address it visits is a user address and the
array has room: it returns, the words `i .. i + n - 1` of the array hold the
stack words above position `i`, the other words are unchanged. -/
theorem get_argument_loop_ok (cfg : Config) (n : Nat) :
    ∀ (i : Nat) (esp : Nat) (arg : List Nat) (s : State), i + n ≤ arg.length →
      (∀ k : Nat, i < k → k ≤ i + n → is_user_vaddr cfg (arg_addr esp k) = true) →
      ∃ arg1 : List Nat,
        get_argument_loop cfg n i (arg_addr esp i) arg s
          = Outcome.ret arg1 (with_events (arg_loads esp i n) s) ∧
        arg1.length = arg.length ∧
        (∀ j : Nat, i ≤ j → j < i + n → arg1[j]? = some (word_at s.mem (arg_addr esp (j + 1)))) ∧
        (∀ j : Nat, j < i ∨ i + n ≤ j → arg1[j]? = arg[j]?) := by
  induction n with
  | zero =>
    intro i esp arg s _ _
    refine ⟨arg, ?_, rfl, ?_, fun _ _ => rfl⟩
    · simp [get_argument_loop, arg_loads, with_events_nil]
    · intro j h1 h2; omega
  | succ n ih =>
    intro i esp arg s hlen hvalid
    have hv := hvalid (i + 1) (by omega) (by omega)
    obtain ⟨arg1, h1, h2, h3, h4⟩ := ih (i + 1) esp (arg.set i (word_at s.mem (arg_addr esp (i + 1))))
      (emit (Event.load32 (arg_addr esp (i + 1))) s) (by simp; omega)
      (fun k hk1 hk2 => hvalid k (by omega) (by omega))
    refine ⟨arg1, ?_, ?_, ?_, ?_⟩
    · rw [get_argument_loop]
      simp only [arg_addr_succ, hv, load32]
      rw [if_neg (by simp), if_pos (by omega)]
      rw [h1, with_events_emit, arg_loads_succ]
    · simpa using h2
    · intro j hj1 hj2
      by_cases hji : j = i
      · subst hji
        rw [h4 j (by omega)]
        simp [List.getElem?_set]
        omega
      · have := h3 j (by omega) (by omega)
        simpa using this
    · intro j hj
      rw [h4 j (by omega)]
      rw [List.getElem?_set_ne (by omega)]

/-- The fetch loop when the `m`-th address it visits is the first that is not a
user address: it ends in `exit (-1)` after the reads of the words before. -/
theorem get_argument_loop_bad (cfg : Config) (n : Nat) :
    ∀ (i m : Nat) (esp : Nat) (arg : List Nat) (s : State), 1 ≤ m → m ≤ n →
      i + (m - 1) ≤ arg.length →
      (∀ k : Nat, i < k → k < i + m → is_user_vaddr cfg (arg_addr esp k) = true) →
      is_user_vaddr cfg (arg_addr esp (i + m)) = false →
      get_argument_loop cfg n i (arg_addr esp i) arg s
        = Outcome.exited (exit (-1) (with_events (arg_loads esp i (m - 1)) s)) := by
  induction n with
  | zero => intro i m esp arg s h1 h2; omega
  | succ n ih =>
    intro i m esp arg s hm1 hmn hlen hvalid hbad
    by_cases hm : m = 1
    · subst hm
      rw [get_argument_loop]
      simp only [arg_addr_succ, hbad]
      simp [arg_loads, with_events_nil]
    · have hv := hvalid (i + 1) (by omega) (by omega)
      have := ih (i + 1) (m - 1) esp (arg.set i (word_at s.mem (arg_addr esp (i + 1))))
        (emit (Event.load32 (arg_addr esp (i + 1))) s) (by omega) (by omega)
        (by simp; omega) (fun k hk1 hk2 => hvalid k (by omega) (by omega))
        (by rw [show i + 1 + (m - 1) = i + m by omega]; exact hbad)
      rw [get_argument_loop]
      simp only [arg_addr_succ, hv, load32]
      rw [if_neg (by simp), if_pos (by omega)]
      rw [this, with_events_emit, ← arg_loads_succ]
      rw [show m - 1 - 1 + 1 = m - 1 by omega]

/-- C5: for a stack pointer `esp`, a count and an array with room for `count`
words: when the addresses `esp + 4 * i`, `i = 1 .. count`, are all user
addresses, `get_argument` returns, having read exactly these `count` words, with
`arg[i - 1]` the word stored at `esp + 4 * i` and the rest of the array
untouched; when `m` is the first `i` whose address is not a user address, it
ends in `exit (-1)` after the reads of the words `1 .. m - 1` only, the word at
that address is not read and no value is returned. -/
theorem get_argument_fetches_count_words (cfg : Config) (esp : Nat) (arg : List Nat)
    (count : Nat) (s : State) (hesp : esp < WORD) (hroom : count ≤ arg.length) :
    ((∀ i : Nat, 1 ≤ i → i ≤ count → is_user_vaddr cfg (arg_addr esp i) = true) →
      ∃ arg1 : List Nat,
        get_argument cfg esp arg (count : Int) s
          = Outcome.ret arg1 (with_events (arg_loads esp 0 count) s) ∧
        arg1.length = arg.length ∧
        (∀ i : Nat, 1 ≤ i → i ≤ count → arg1[i - 1]? = some (word_at s.mem (arg_addr esp i))) ∧
        (∀ j : Nat, count ≤ j → arg1[j]? = arg[j]?)) ∧
    (∀ m : Nat, 1 ≤ m → m ≤ count →
      (∀ i : Nat, 1 ≤ i → i < m → is_user_vaddr cfg (arg_addr esp i) = true) →
      is_user_vaddr cfg (arg_addr esp m) = false →
      get_argument cfg esp arg (count : Int) s
        = Outcome.exited (exit (-1) (with_events (arg_loads esp 0 (m - 1)) s)) ∧
      (get_argument cfg esp arg (count : Int) s).exit_status? = some (-1) ∧
      (get_argument cfg esp arg (count : Int) s).value? = none ∧
      Event.load32 (arg_addr esp m) ∉ arg_loads esp 0 (m - 1)) := by
  have hstart : get_argument cfg esp arg (count : Int) s
      = get_argument_loop cfg count 0 (arg_addr esp 0) arg s := by
    unfold get_argument
    rw [arg_addr_zero esp hesp, Int.toNat_ofNat]
  constructor
  · intro hvalid
    obtain ⟨arg1, h1, h2, h3, h4⟩ := get_argument_loop_ok cfg count 0 esp arg s (by omega)
      (fun k hk1 hk2 => hvalid k (by omega) (by omega))
    refine ⟨arg1, by rw [hstart, h1], h2, ?_, ?_⟩
    · intro i hi1 hi2
      have := h3 (i - 1) (by omega) (by omega)
      rwa [show i - 1 + 1 = i by omega] at this
    · intro j hj
      exact h4 j (by omega)
  · intro m hm1 hm2 hvalid hbad
    have hrun := get_argument_loop_bad cfg count 0 m esp arg s hm1 hm2 (by omega)
      (fun k hk1 hk2 => hvalid k (by omega) (by omega)) (by simpa using hbad)
    rw [hstart, hrun]
    refine ⟨rfl, ?_, rfl, ?_⟩
    · show some (exit (-1) _).cur.exit_status = some (-1)
      rw [(exit_spec (-1) _).1]
    · intro hmem
      unfold arg_loads at hmem
      rw [List.mem_map] at hmem
      obtain ⟨k, hk, hke⟩ := hmem
      rw [List.mem_range'_1] at hk
      have hv := hvalid k (by omega) (by omega)
      rw [Event.load32.injEq] at hke
      rw [hke, hbad] at hv
      exact Bool.noConfusion hv

/-- C5, instance: two words above `esp = 1000` are fetched into a three-word
array; with `esp` eight bytes below the split the second address is the split
itself and the call ends in `exit (-1)` after one read. -/
theorem get_argument_fetches_count_words_witness :
    (∃ arg1 : List Nat,
      get_argument sample_config 1000 [0, 0, 0] 2
          (sample_state (sample_thread 0 0) 1000 (fun x => x % 251) (fun _ => 0) [])
        = Outcome.ret arg1 (with_events [Event.load32 1004, Event.load32 1008]
            (sample_state (sample_thread 0 0) 1000 (fun x => x % 251) (fun _ => 0) [])) ∧
      arg1[0]? = some (word_at (fun x => x % 251) 1004) ∧
      arg1[1]? = some (word_at (fun x => x % 251) 1008) ∧
      arg1[2]? = some 0) ∧
    (get_argument sample_config 3221225464 [0, 0, 0] 2
        (sample_state (sample_thread 0 0) 3221225464 (fun x => x % 251) (fun _ => 0) [])
      = Outcome.exited (exit (-1) (with_events [Event.load32 3221225468]
          (sample_state (sample_thread 0 0) 3221225464 (fun x => x % 251) (fun _ => 0) [])))) := by
  constructor
  · obtain ⟨arg1, h1, _, h3, h4⟩ :=
      (get_argument_fetches_count_words sample_config 1000 [0, 0, 0] 2
        (sample_state (sample_thread 0 0) 1000 (fun x => x % 251) (fun _ => 0) [])
        (by decide) (by decide)).1
        (by
          intro i h1 h2
          have : i = 1 ∨ i = 2 := by omega
          rcases this with h | h <;> subst h <;> decide)
    exact ⟨arg1, h1, h3 1 (by omega) (by omega), h3 2 (by omega) (by omega), h4 2 (by omega)⟩
  · exact ((get_argument_fetches_count_words sample_config 3221225464 [0, 0, 0] 2
        (sample_state (sample_thread 0 0) 3221225464 (fun x => x % 251) (fun _ => 0) [])
        (by decide) (by decide)).2 2 (by omega) (by omega)
        (by
          intro i h1 h2
          have : i = 1 := by omega
          subst this; decide)
        (by decide)).1

/-! ## Descriptors that are not open -/

theorem slot_of_not_open (t : thread) (fd : Int) (h0 : 0 ≤ fd) (h131 : fd < 131)
    (hclosed : is_open t fd = false) : slot t fd = some none := by
  unfold is_open at hclosed
  rw [slot_in _ _ ⟨h0, h131⟩] at hclosed ⊢
  cases h : t.file_list ⟨fd.toNat, by omega⟩ with
  | none => rfl
  | some g => rw [h] at hclosed; exact Bool.noConfusion hclosed

theorem exit_status_of_exit (status : Int) (s : State) :
    (Outcome.exited (exit status s) : Outcome Unit).exit_status? = some status := by
  show some (exit status s).cur.exit_status = some status
  rw [(exit_spec status s).1]

/-- C2, at the failing input: descriptor 131 and descriptor -1 map to no live
handle of a process with descriptors 3 and 4 open, yet `close`, `filesize`,
`seek` and `tell` do not end in `exit (-1)` on them: they index `file_list`
outside its 131 slots, which has no defined result. -/
theorem descriptor_outside_table_undefined :
    is_open (sample_thread 3 5) 131 = false ∧ is_open (sample_thread 3 5) (-1) = false ∧
    close 131 (sample_state (sample_thread 3 5) 0 (fun _ => 0) (fun _ => 0) [103, 104])
      = Outcome.undefined ∧
    filesize (sample_collab none) 131
      (sample_state (sample_thread 3 5) 0 (fun _ => 0) (fun _ => 0) [103, 104])
      = Outcome.undefined ∧
    seek (-1) 0 (sample_state (sample_thread 3 5) 0 (fun _ => 0) (fun _ => 0) [103, 104])
      = Outcome.undefined ∧
    tell (sample_collab none) (-1)
      (sample_state (sample_thread 3 5) 0 (fun _ => 0) (fun _ => 0) [103, 104])
      = Outcome.undefined ∧
    (close 131 (sample_state (sample_thread 3 5) 0 (fun _ => 0) (fun _ => 0)
      [103, 104])).exit_status? ≠ some (-1) := by
  refine ⟨by decide, by decide, rfl, rfl, rfl, rfl, ?_⟩
  intro h
  exact Option.noConfusion h

/-- Inside the table the descriptor check works: for a descriptor `fd` with
`0 ≤ fd < 131` whose slot is empty, each of `close`, `filesize`, `seek` and `tell` ends in `exit (-1)`: the
exit status recorded is -1, the exit sequence runs from the state of the call
and no value is returned. -/
theorem closed_descriptor_in_table_is_fatal (a : Collab) (fd : Int) (pos : Nat) (s : State)
    (h0 : 0 ≤ fd) (h131 : fd < 131) (hclosed : is_open s.cur fd = false) :
    close fd s = Outcome.exited (exit (-1) s) ∧
    filesize a fd s = Outcome.exited (exit (-1) s) ∧
    seek fd pos s = Outcome.exited (exit (-1) s) ∧
    tell a fd s = Outcome.exited (exit (-1) s) ∧
    (exit (-1) s).cur.exit_status = -1 ∧
    (exit (-1) s).trace
      = s.trace ++ Event.printf_exit s.cur.name (-1)
          :: ((open_handles s.cur).map Event.file_close ++ [Event.thread_exit]) := by
  have hs := slot_of_not_open s.cur fd h0 h131 hclosed
  refine ⟨close_of_empty fd s hs, ?_, ?_, ?_, (exit_spec (-1) s).1, (exit_spec (-1) s).2.1⟩
  · unfold filesize; rw [hs]
  · unfold seek; rw [hs]
  · unfold tell; rw [hs]

/-- Instance of the descriptor check inside the table: descriptor 0 of a process
with descriptors 3 and 4 open. -/
theorem closed_descriptor_in_table_is_fatal_witness :
    is_open (sample_thread 3 5) 0 = false ∧
    close 0 (sample_state (sample_thread 3 5) 0 (fun _ => 0) (fun _ => 0) [103, 104])
      = Outcome.exited (exit (-1)
          (sample_state (sample_thread 3 5) 0 (fun _ => 0) (fun _ => 0) [103, 104])) ∧
    (exit (-1) (sample_state (sample_thread 3 5) 0 (fun _ => 0) (fun _ => 0)
      [103, 104])).cur.exit_status = -1 :=
  have h := closed_descriptor_in_table_is_fatal (sample_collab none) 0 0
    (sample_state (sample_thread 3 5) 0 (fun _ => 0) (fun _ => 0) [103, 104])
    (by decide) (by decide) (by decide)
  ⟨by decide, h.1, h.2.2.2.2.1⟩

theorem read_console (cfg : Config) (a : Collab) (buffer size : Nat) (s : State)
    (hbuf : is_user_vaddr cfg buffer = true) :
    read cfg a 0 buffer size s
      = Outcome.ret (to_int32 (read_loop buffer size 0 (lock_acquire s)).1)
          (lock_release (read_loop buffer size 0 (lock_acquire s)).2) := by
  unfold read
  simp [hbuf]

theorem write_console (cfg : Config) (a : Collab) (buffer size : Nat) (s : State)
    (hbuf : is_user_vaddr cfg buffer = true) :
    write cfg a 1 buffer size s
      = Outcome.ret (to_int32 size)
          (lock_release (emit (Event.putbuf buffer size) (lock_acquire s))) := by
  unfold write
  simp [hbuf]

/-- C3, at the failing input: descriptor 131 is not open and the buffer is a
user address, yet `read` and `write` do not end in `exit (-1)`: they index
`file_list` outside its 131 slots, which has no defined result. -/
theorem read_write_outside_table_undefined :
    is_user_vaddr sample_config 4096 = true ∧ is_open (sample_thread 3 5) 131 = false ∧
    read sample_config (sample_collab none) 131 4096 1
      (sample_state (sample_thread 3 5) 0 (fun _ => 0) (fun _ => 0) [103, 104])
      = Outcome.undefined ∧
    write sample_config (sample_collab none) 131 4096 1
      (sample_state (sample_thread 3 5) 0 (fun _ => 0) (fun _ => 0) [103, 104])
      = Outcome.undefined ∧
    (read sample_config (sample_collab none) 131 4096 1
      (sample_state (sample_thread 3 5) 0 (fun _ => 0) (fun _ => 0)
        [103, 104])).exit_status? ≠ some (-1) := by
  refine ⟨by decide, by decide, rfl, rfl, ?_⟩
  intro h
  exact Option.noConfusion h

/-- Inside the table `read` and `write` check the descriptor: with a buffer at
a user address and any size, `read` and `write` on a descriptor `fd` with `3 ≤ fd < 131` whose slot is empty end in
`exit (-1)` with exit status -1, while `read` on descriptor 0 and `write` on
descriptor 1 return. -/
theorem read_write_closed_descriptor_in_table (cfg : Config) (a : Collab) (fd : Int)
    (buffer size : Nat) (s : State) (hbuf : is_user_vaddr cfg buffer = true) :
    (3 ≤ fd → fd < 131 → is_open s.cur fd = false →
      read cfg a fd buffer size s = Outcome.exited (exit (-1) (lock_acquire s)) ∧
      write cfg a fd buffer size s
        = Outcome.exited (exit (-1) (lock_release (lock_acquire s))) ∧
      (read cfg a fd buffer size s).exit_status? = some (-1) ∧
      (write cfg a fd buffer size s).exit_status? = some (-1)) ∧
    (∃ (v : Int) (s1 : State), read cfg a 0 buffer size s = Outcome.ret v s1) ∧
    (∃ (v : Int) (s1 : State), write cfg a 1 buffer size s = Outcome.ret v s1) := by
  refine ⟨?_, ?_, ?_⟩
  · intro h3 h131 hclosed
    have hs : slot (lock_acquire s).cur fd = some none :=
      slot_of_not_open s.cur fd (by omega) h131 hclosed
    have hne0 : fd ≠ 0 := by omega
    have hne1 : fd ≠ 1 := by omega
    have hr : read cfg a fd buffer size s = Outcome.exited (exit (-1) (lock_acquire s)) := by
      unfold read
      simp only [hbuf, hne0, h3, ge_iff_le]
      simp only [hs]
      simp
    have hw : write cfg a fd buffer size s
        = Outcome.exited (exit (-1) (lock_release (lock_acquire s))) := by
      unfold write
      simp only [hbuf, hne1, h3, ge_iff_le]
      simp only [hs]
      simp
    refine ⟨hr, hw, ?_, ?_⟩
    · rw [hr]; exact exit_status_of_exit _ _
    · rw [hw]; exact exit_status_of_exit _ _
  · exact ⟨_, _, read_console cfg a buffer size s hbuf⟩
  · exact ⟨_, _, write_console cfg a buffer size s hbuf⟩

/-- Instance of the check of `read` and `write` inside the table: descriptor 5
of a process with descriptors 3 and 4 open, buffer at address 4096. -/
theorem read_write_closed_descriptor_in_table_witness :
    is_user_vaddr sample_config 4096 = true ∧ is_open (sample_thread 3 5) 5 = false ∧
    (read sample_config (sample_collab none) 5 4096 1
      (sample_state (sample_thread 3 5) 0 (fun _ => 0) (fun _ => 0)
        [103, 104])).exit_status? = some (-1) ∧
    (write sample_config (sample_collab none) 5 4096 1
      (sample_state (sample_thread 3 5) 0 (fun _ => 0) (fun _ => 0)
        [103, 104])).exit_status? = some (-1) :=
  have h := (read_write_closed_descriptor_in_table sample_config (sample_collab none) 5 4096 1
    (sample_state (sample_thread 3 5) 0 (fun _ => 0) (fun _ => 0) [103, 104])
    (by decide)).1 (by decide) (by decide) (by decide)
  ⟨by decide, by decide, h.2.2.1, h.2.2.2⟩

/-! ## The dispatcher -/

/-- The argument fetch of the dispatcher, for a count its array has room for. -/
theorem fetch_arguments (cfg : Config) (count : Nat) (s : State) (hesp : s.frame.esp < WORD)
    (hcount : count ≤ 3)
    (hvalid : ∀ i : Nat, 1 ≤ i → i ≤ count → is_user_vaddr cfg (arg_addr s.frame.esp i) = true) :
    ∃ arg1 : List Nat,
      get_argument cfg s.frame.esp arg_buffer (count : Int) (emit (Event.load32 s.frame.esp) s)
        = Outcome.ret arg1
            (with_events (Event.load32 s.frame.esp :: arg_loads s.frame.esp 0 count) s) ∧
      ∀ i : Nat, i < count → arg_at arg1 i = word_at s.mem (arg_addr s.frame.esp (i + 1)) := by
  have hstart : get_argument cfg s.frame.esp arg_buffer (count : Int)
      (emit (Event.load32 s.frame.esp) s)
      = get_argument_loop cfg count 0 (arg_addr s.frame.esp 0) arg_buffer
          (emit (Event.load32 s.frame.esp) s) := by
    unfold get_argument
    rw [arg_addr_zero _ hesp, Int.toNat_ofNat]
  obtain ⟨arg1, h1, _, h3, _⟩ := get_argument_loop_ok cfg count 0 s.frame.esp arg_buffer
    (emit (Event.load32 s.frame.esp) s) (by simp [arg_buffer]; omega)
    (fun k hk1 hk2 => hvalid k (by omega) (by omega))
  refine ⟨arg1, ?_, ?_⟩
  · rw [hstart, h1, with_events_emit]
  · intro i hi
    have := h3 i (by omega) (by omega)
    unfold arg_at
    rw [List.getD_eq_getElem?_getD, this]
    rfl

/-- C8: when the number read at the stack pointer is none of the 15 known
identifiers, the dispatcher calls `thread_exit` directly: the only events are
the read of the number and `thread_exit`, so no argument word is read, the exit
status is not written, no descriptor is closed or cleared and the return-value
slot is not written. -/
theorem unknown_syscall_kills_thread (cfg : Config) (a : Collab) (s : State)
    (hnr : cfg.syscall_nr (word_at s.mem s.frame.esp) = none) :
    ∃ s1 : State, syscall_handler cfg a s = Outcome.killed s1 ∧
      s1.trace = s.trace ++ [Event.load32 s.frame.esp, Event.thread_exit] ∧
      s1.cur.exit_status = s.cur.exit_status ∧
      s1.cur.file_list = s.cur.file_list ∧
      s1.live = s.live ∧
      s1.frame = s.frame := by
  refine ⟨emit Event.thread_exit (emit (Event.load32 s.frame.esp) s), ?_, by simp, rfl, rfl,
    rfl, rfl⟩
  unfold syscall_handler
  simp only [load32, hnr]

/-- C8, instance: the number 77 is not known to the sample numbering. -/
theorem unknown_syscall_kills_thread_witness :
    ∃ s1 : State,
      syscall_handler sample_config (sample_collab none)
        (call_state (sample_thread 3 5) 77 0 0 0 0) = Outcome.killed s1 ∧
      s1.trace = [Event.load32 1000, Event.thread_exit] ∧
      s1.cur.exit_status = 0 ∧
      s1.live = [103, 104] ∧
      s1.frame = { esp := 1000, eax := 0 } := by
  obtain ⟨s1, h1, h2, h3, _, h5, h6⟩ := unknown_syscall_kills_thread sample_config
    (sample_collab none) (call_state (sample_thread 3 5) 77 0 0 0 0) (by decide)
  refine ⟨s1, h1, h2, h3, ?_, h6⟩
  rw [h5]
  decide

/-- The events of `exit (-1)` after the dispatcher fetched `n` argument words:
the reads, the notice, the closes and `thread_exit`, none a call of the
filesystem with a path. -/
theorem fatal_after_fetch_events (s : State) (n : Nat) :
    events_since s
        (exit (-1) (with_events (Event.load32 s.frame.esp :: arg_loads s.frame.esp 0 n) s))
      = (Event.load32 s.frame.esp :: arg_loads s.frame.esp 0 n)
          ++ Event.printf_exit s.cur.name (-1)
            :: ((open_handles s.cur).map Event.file_close ++ [Event.thread_exit]) ∧
    ∀ e ∈ events_since s
        (exit (-1) (with_events (Event.load32 s.frame.esp :: arg_loads s.frame.esp 0 n) s)),
      e.is_path_call = false := by
  have htrace := (exit_spec (-1)
    (with_events (Event.load32 s.frame.esp :: arg_loads s.frame.esp 0 n) s)).2.1
  have hev : events_since s
        (exit (-1) (with_events (Event.load32 s.frame.esp :: arg_loads s.frame.esp 0 n) s))
      = (Event.load32 s.frame.esp :: arg_loads s.frame.esp 0 n)
          ++ Event.printf_exit s.cur.name (-1)
            :: ((open_handles s.cur).map Event.file_close ++ [Event.thread_exit]) := by
    unfold events_since
    rw [htrace, with_events_trace, with_events_cur, List.append_assoc, List.drop_left]
  refine ⟨hev, ?_⟩
  intro e he
  rw [hev] at he
  simp only [List.mem_append, List.mem_cons, List.mem_map, arg_loads, List.mem_singleton,
    List.not_mem_nil, or_false] at he
  rcases he with (h | ⟨k, _, h⟩) | h | ⟨g, _, h⟩ | h <;> subst h <;> rfl

/-- C7: when the first argument word is zero, the dispatcher ends `create`,
`remove` and `open` in `exit (-1)` right after the argument fetch, with no call
of the filesystem, while for `exec` it calls the process executor with the zero
word and writes its result to the return-value slot. -/
theorem null_path_is_fatal_at_dispatch (cfg : Config) (a : Collab) (s : State)
    (hesp : s.frame.esp < WORD)
    (hv1 : is_user_vaddr cfg (arg_addr s.frame.esp 1) = true)
    (hnull : word_at s.mem (arg_addr s.frame.esp 1) = 0) :
    (cfg.syscall_nr (word_at s.mem s.frame.esp) = some Sysno.SYS_CREATE →
      is_user_vaddr cfg (arg_addr s.frame.esp 2) = true →
      syscall_handler cfg a s = Outcome.exited (exit (-1)
        (with_events (Event.load32 s.frame.esp :: arg_loads s.frame.esp 0 2) s)) ∧
      (syscall_handler cfg a s).exit_status? = some (-1) ∧
      ∀ e ∈ events_since s (exit (-1)
        (with_events (Event.load32 s.frame.esp :: arg_loads s.frame.esp 0 2) s)),
        e.is_path_call = false) ∧
    ((cfg.syscall_nr (word_at s.mem s.frame.esp) = some Sysno.SYS_REMOVE ∨
      cfg.syscall_nr (word_at s.mem s.frame.esp) = some Sysno.SYS_OPEN) →
      syscall_handler cfg a s = Outcome.exited (exit (-1)
        (with_events (Event.load32 s.frame.esp :: arg_loads s.frame.esp 0 1) s)) ∧
      (syscall_handler cfg a s).exit_status? = some (-1) ∧
      ∀ e ∈ events_since s (exit (-1)
        (with_events (Event.load32 s.frame.esp :: arg_loads s.frame.esp 0 1) s)),
        e.is_path_call = false) ∧
    (cfg.syscall_nr (word_at s.mem s.frame.esp) = some Sysno.SYS_EXEC →
      ∃ s1 : State, syscall_handler cfg a s = Outcome.ret () s1 ∧
        events_since s s1
          = [Event.load32 s.frame.esp, Event.load32 (arg_addr s.frame.esp 1),
              Event.process_execute 0, Event.store_eax (to_uint32 a.process_execute)] ∧
        s1.frame.eax = to_uint32 a.process_execute) := by
  have hvalid1 : ∀ i : Nat, 1 ≤ i → i ≤ 1 → is_user_vaddr cfg (arg_addr s.frame.esp i) = true := by
    intro i h1 h2
    have : i = 1 := by omega
    subst this; exact hv1
  obtain ⟨arg1, hf1, ha1⟩ := fetch_arguments cfg 1 s hesp (by omega) hvalid1
  have hw1 : arg_at arg1 0 = 0 := by rw [ha1 0 (by omega)]; exact hnull
  have hf1c : get_argument cfg s.frame.esp arg_buffer 1 (emit (Event.load32 s.frame.esp) s)
      = Outcome.ret arg1
          (with_events (Event.load32 s.frame.esp :: arg_loads s.frame.esp 0 1) s) := hf1
  refine ⟨?_, ?_, ?_⟩
  · intro hnr hv2
    have hvalid2 : ∀ i : Nat, 1 ≤ i → i ≤ 2 →
        is_user_vaddr cfg (arg_addr s.frame.esp i) = true := by
      intro i h1 h2
      have : i = 1 ∨ i = 2 := by omega
      rcases this with h | h <;> subst h
      · exact hv1
      · exact hv2
    obtain ⟨arg2, hf2, ha2⟩ := fetch_arguments cfg 2 s hesp (by omega) hvalid2
    have hw2 : arg_at arg2 0 = 0 := by rw [ha2 0 (by omega)]; exact hnull
    have hf2c : get_argument cfg s.frame.esp arg_buffer 2 (emit (Event.load32 s.frame.esp) s)
        = Outcome.ret arg2
            (with_events (Event.load32 s.frame.esp :: arg_loads s.frame.esp 0 2) s) := hf2
    have hrun : syscall_handler cfg a s = Outcome.exited (exit (-1)
        (with_events (Event.load32 s.frame.esp :: arg_loads s.frame.esp 0 2) s)) := by
      unfold syscall_handler
      simp only [load32, hnr, hf2c, Outcome.bind, hw2, if_true]
    refine ⟨hrun, ?_, (fatal_after_fetch_events s 2).2⟩
    rw [hrun]; exact exit_status_of_exit _ _
  · intro hnr
    have hrun : syscall_handler cfg a s = Outcome.exited (exit (-1)
        (with_events (Event.load32 s.frame.esp :: arg_loads s.frame.esp 0 1) s)) := by
      rcases hnr with hnr | hnr
      · unfold syscall_handler
        simp only [load32, hnr, hf1c, Outcome.bind, hw1, if_true]
      · unfold syscall_handler
        simp only [load32, hnr, hf1c, Outcome.bind, hw1, if_true]
    refine ⟨hrun, ?_, (fatal_after_fetch_events s 1).2⟩
    rw [hrun]; exact exit_status_of_exit _ _
  · intro hnr
    refine ⟨set_eax (to_uint32 a.process_execute) (emit (Event.process_execute 0)
      (with_events (Event.load32 s.frame.esp :: arg_loads s.frame.esp 0 1) s)), ?_, ?_, rfl⟩
    · unfold syscall_handler
      simp only [load32, hnr, hf1c, Outcome.bind, exec, hw1]
    · unfold events_since
      simp [set_eax, arg_loads]

/-- C7, instance: `open` with a zero path word ends in `exit (-1)`; `exec` with
a zero command-line word returns with the answer 7 of the process executor in
the return-value slot. -/
theorem null_path_is_fatal_at_dispatch_witness :
    (syscall_handler sample_config (sample_collab (some 9))
      (call_state (sample_thread 3 5) 6 0 0 0 0)).exit_status? = some (-1) ∧
    (∃ s1 : State,
      syscall_handler sample_config (sample_collab (some 9))
        (call_state (sample_thread 3 5) 2 0 0 0 0) = Outcome.ret () s1 ∧
      s1.frame.eax = 7) := by
  have h6 := (null_path_is_fatal_at_dispatch sample_config (sample_collab (some 9))
    (call_state (sample_thread 3 5) 6 0 0 0 0) (by decide) (by decide) (by decide)).2.1
    (Or.inr (by decide))
  obtain ⟨s1, h1, _, h3⟩ := (null_path_is_fatal_at_dispatch sample_config
    (sample_collab (some 9)) (call_state (sample_thread 3 5) 2 0 0 0 0)
    (by decide) (by decide) (by decide)).2.2 (by decide)
  exact ⟨h6.2.1, s1, h1, h3⟩

/-- The dispatcher asks for four words but its array `arg` has three: when the
four addresses are user addresses the fourth store is outside the array. -/
theorem fetch_four_overflows (cfg : Config) (s : State) (hesp : s.frame.esp < WORD)
    (hvalid : ∀ i : Nat, 1 ≤ i → i ≤ 4 → is_user_vaddr cfg (arg_addr s.frame.esp i) = true) :
    get_argument cfg s.frame.esp arg_buffer 4 (emit (Event.load32 s.frame.esp) s)
      = Outcome.undefined := by
  have h1 := hvalid 1 (by omega) (by omega)
  have h2 := hvalid 2 (by omega) (by omega)
  have h3 := hvalid 3 (by omega) (by omega)
  have h4 := hvalid 4 (by omega) (by omega)
  have hstart : get_argument cfg s.frame.esp arg_buffer 4 (emit (Event.load32 s.frame.esp) s)
      = get_argument_loop cfg 4 0 (arg_addr s.frame.esp 0) arg_buffer
          (emit (Event.load32 s.frame.esp) s) := by
    unfold get_argument
    rw [arg_addr_zero _ hesp]
    rfl
  rw [hstart]
  simp [get_argument_loop, arg_addr_succ, h1, h2, h3, h4, load32, arg_buffer]

/-- The call `sum_of_four_int (1, 2, 3, 4)` with the number and the four
argument words at user addresses 1000 .. 1016, for the array `arg` alone: the
dispatcher asks `get_argument` for 4 words and the fourth is stored at `arg[3]`,
outside `uint32_t arg[3]`, which C leaves without a defined result. What the
machine does with the stack word after the array is in
`dispatch_follows_interface_table`. -/
theorem dispatch_sum_of_four_int_overflows :
    sample_config.syscall_nr
        (word_at (call_state (sample_thread 0 0) 14 1 2 3 4).mem 1000)
      = some Sysno.SYS_SUM_OF_FOUR_INT ∧
    (∀ i : Nat, 1 ≤ i → i ≤ 4 → is_user_vaddr sample_config (arg_addr 1000 i) = true) ∧
    syscall_handler sample_config (sample_collab none)
        (call_state (sample_thread 0 0) 14 1 2 3 4) = Outcome.undefined ∧
    (syscall_handler sample_config (sample_collab none)
        (call_state (sample_thread 0 0) 14 1 2 3 4)).state? = none := by
  refine ⟨by decide, ?_, rfl, rfl⟩
  intro i h1 h2
  have : i = 1 ∨ i = 2 ∨ i = 3 ∨ i = 4 := by omega
  rcases this with h | h | h | h <;> subst h <;> decide

/-! ## Console input -/

theorem console_chars_succ (input : Nat → Nat) (p n : Nat) :
    console_chars input p (n + 1) = input p % 256 :: console_chars input (p + 1) n := by
  unfold console_chars
  rw [List.range_succ_eq_map, List.map_cons, List.map_map]
  congr 1
  apply List.map_congr_left
  intro j _
  simp only [Function.comp, Nat.succ_eq_add_one]
  congr 2
  omega

theorem first_null_zero (input : Nat → Nat) (p : Nat) : first_null input p 0 = 0 := rfl

theorem first_null_succ (input : Nat → Nat) (p n : Nat) :
    first_null input p (n + 1)
      = if input p % 256 = 0 then 0 else first_null input (p + 1) n + 1 := by
  unfold first_null
  rw [console_chars_succ, List.findIdx_cons]
  by_cases h : input p % 256 = 0
  · rw [if_pos h, h]; rfl
  · rw [if_neg h, beq_false_of_ne h]; rfl

theorem first_null_le (input : Nat → Nat) (p n : Nat) : first_null input p n ≤ n := by
  unfold first_null
  have := @List.findIdx_le_length _ (fun c => c == 0) (console_chars input p n)
  simpa [console_chars] using this

theorem console_events_succ (buffer : Nat) (input : Nat → Nat) (i p c : Nat) :
    console_events buffer input i p (c + 1)
      = [Event.input_getc, Event.store8 ((buffer + i) % WORD) (input p % 256),
          Event.load8 ((buffer + i) % WORD)] ++ console_events buffer input (i + 1) (p + 1) c := by
  unfold console_events
  rw [List.range_succ_eq_map, List.map_cons, List.flatten_cons, List.map_map]
  congr 2
  apply List.map_congr_left
  intro m _
  simp only [Function.comp, Nat.succ_eq_add_one]
  rw [show i + (m + 1) = i + 1 + m by omega, show p + (m + 1) = p + 1 + m by omega]

/-- What the console loop of `read` does. -/
theorem read_loop_spec (buffer : Nat) (n : Nat) : ∀ (i : Nat) (s : State),
    (read_loop buffer n i s).1 = i + first_null s.input s.input_pos n ∧
    (read_loop buffer n i s).2.trace
      = s.trace ++ console_events buffer s.input i s.input_pos (consumed s.input s.input_pos n) ∧
    (read_loop buffer n i s).2.input_pos = s.input_pos + consumed s.input s.input_pos n ∧
    (read_loop buffer n i s).2.input = s.input ∧
    (read_loop buffer n i s).2.cur = s.cur ∧
    (read_loop buffer n i s).2.frame = s.frame := by
  induction n with
  | zero =>
    intro i s
    simp [read_loop, first_null_zero, consumed, console_events]
  | succ n ih =>
    intro i s
    by_cases h0 : s.input s.input_pos % 256 = 0
    · have hk : first_null s.input s.input_pos (n + 1) = 0 := by
        rw [first_null_succ, if_pos h0]
      have hc : consumed s.input s.input_pos (n + 1) = 1 := by
        unfold consumed; rw [hk]; simp
      rw [hk, hc, console_events_succ]
      simp [read_loop, input_getc, store8, load8, h0, console_events]
    · have hk : first_null s.input s.input_pos (n + 1)
          = first_null s.input (s.input_pos + 1) n + 1 := by
        rw [first_null_succ, if_neg h0]
      have hc : consumed s.input s.input_pos (n + 1)
          = consumed s.input (s.input_pos + 1) n + 1 := by
        unfold consumed; rw [hk]
        by_cases hlt : first_null s.input (s.input_pos + 1) n < n
        · rw [if_pos (by omega), if_pos hlt]
        · rw [if_neg (by omega), if_neg hlt]
      obtain ⟨h1, h2, h3, h4, h5, h6⟩ := ih (i + 1)
        (load8 ((buffer + i) % WORD)
          (store8 ((buffer + i) % WORD) (input_getc s).1 (input_getc s).2)).2
      have hstep : read_loop buffer (n + 1) i s = read_loop buffer n (i + 1)
          (load8 ((buffer + i) % WORD)
            (store8 ((buffer + i) % WORD) (input_getc s).1 (input_getc s).2)).2 := by
        rw [read_loop]
        simp [input_getc, store8, load8, h0]
      rw [hstep, hk, hc, console_events_succ]
      simp only [input_getc, store8, load8, emit_trace, emit_input, emit_input_pos, emit_cur,
        emit_frame] at h1 h2 h3 h4 h5 h6 ⊢
      refine ⟨by rw [h1]; omega, ?_, by rw [h3]; omega, h4, h5, h6⟩
      rw [h2]
      simp

theorem to_int32_of_lt (w : Nat) (h : w < 2147483648) : to_int32 w = (w : Int) := by
  unfold to_int32 WORD
  have hm : w % 4294967296 = w := Nat.mod_eq_of_lt (by omega)
  rw [hm, if_pos h]

theorem to_int32_le (w : Nat) : to_int32 w ≤ (w : Int) := by
  unfold to_int32 WORD
  have hm : w % 4294967296 ≤ w := Nat.mod_le _ _
  split <;> omega

theorem first_null_of_no_null (input : Nat → Nat) (h : ∀ j : Nat, input j % 256 ≠ 0) :
    ∀ (n p : Nat), first_null input p n = n
  | 0, _ => rfl
  | n + 1, p => by
    rw [first_null_succ, if_neg (h p), first_null_of_no_null input h n (p + 1)]

/-- The console branch of `read`: result and events. -/
theorem read_console_spec (cfg : Config) (a : Collab) (buffer size : Nat) (s : State)
    (hbuf : is_user_vaddr cfg buffer = true) :
    ∃ s1 : State,
      read cfg a 0 buffer size s
        = Outcome.ret (to_int32 (first_null s.input s.input_pos size)) s1 ∧
      events_since s s1
        = Event.lock_acquire
            :: (console_events buffer s.input 0 s.input_pos (consumed s.input s.input_pos size)
              ++ [Event.lock_release]) ∧
      s1.input_pos = s.input_pos + consumed s.input s.input_pos size := by
  obtain ⟨h1, h2, h3, _, _, _⟩ := read_loop_spec buffer size 0 (lock_acquire s)
  refine ⟨lock_release (read_loop buffer size 0 (lock_acquire s)).2, ?_, ?_, ?_⟩
  · rw [read_console cfg a buffer size s hbuf, h1]
    simp [lock_acquire]
  · unfold events_since
    simp only [lock_release, emit_trace, h2]
    simp [lock_acquire]
  · simp only [lock_release, emit_input_pos, h3]
    simp [lock_acquire]

/-- C10 (counterexample): the buffer is the user address 0, the size is `2^31`
and the console delivers the character 97 for ever, so no null byte is among the
first `size` characters and `min (size, k) = 2^31`; `read (0, buf, size)` returns
`-2^31`. -/
theorem console_read_large_size_counterexample :
    is_user_vaddr sample_config 0 = true ∧
    min 2147483648 (first_null (fun _ => 97) 0 2147483648) = 2147483648 ∧
    (read sample_config (sample_collab none) 0 0 2147483648
      (sample_state (sample_thread 0 0) 0 (fun _ => 0) (fun _ => 97) [])).value?
      = some (-2147483648) ∧
    (read sample_config (sample_collab none) 0 0 2147483648
      (sample_state (sample_thread 0 0) 0 (fun _ => 0) (fun _ => 97) [])).value?
      ≠ some ((min 2147483648 (first_null (fun _ => 97) 0 2147483648) : Nat) : Int) := by
  have hk : first_null (fun _ => 97) 0 2147483648 = 2147483648 :=
    first_null_of_no_null (fun _ => 97) (fun _ => (by decide : 97 % 256 ≠ 0)) 2147483648 0
  have hv : (read sample_config (sample_collab none) 0 0 2147483648
      (sample_state (sample_thread 0 0) 0 (fun _ => 0) (fun _ => 97) [])).value?
      = some (-2147483648) := by
    obtain ⟨s1, h1, _, _⟩ := read_console_spec sample_config (sample_collab none) 0 2147483648
      (sample_state (sample_thread 0 0) 0 (fun _ => 0) (fun _ => 97) []) (by decide)
    rw [h1]
    show some (to_int32 (first_null (fun _ => 97) 0 2147483648)) = some (-2147483648)
    rw [hk]
    decide
  refine ⟨by decide, by rw [hk]; rfl, hv, ?_⟩
  rw [hv, hk]
  decide

/-- C10 (amended): with a buffer at a user address, `read (0, buf, size)`
returns `min (size, k)` converted to `int`, where `k` is the index of the first
null byte among the first `size` characters the console delivers (`size` when
there is none); this is `min (size, k)` itself when it is below `2^31`, and it
never exceeds `size`. The characters are taken one at a time, character `j` is
stored at `buf + j`, and the loop stops right after it stored the first null
byte, which is not counted. -/
theorem console_read_returns_stop_index (cfg : Config) (a : Collab) (buffer size : Nat)
    (s : State) (hbuf : is_user_vaddr cfg buffer = true) :
    ∃ s1 : State,
      read cfg a 0 buffer size s
        = Outcome.ret (to_int32 (min size (first_null s.input s.input_pos size))) s1 ∧
      (min size (first_null s.input s.input_pos size) < 2147483648 →
        to_int32 (min size (first_null s.input s.input_pos size))
          = ((min size (first_null s.input s.input_pos size) : Nat) : Int)) ∧
      to_int32 (min size (first_null s.input s.input_pos size)) ≤ (size : Int) ∧
      events_since s s1
        = Event.lock_acquire
            :: (console_events buffer s.input 0 s.input_pos (consumed s.input s.input_pos size)
              ++ [Event.lock_release]) ∧
      s1.input_pos = s.input_pos + consumed s.input s.input_pos size ∧
      consumed s.input s.input_pos size
        = (if first_null s.input s.input_pos size < size
            then first_null s.input s.input_pos size + 1 else size) := by
  obtain ⟨s1, h1, h2, h3⟩ := read_console_spec cfg a buffer size s hbuf
  have hmin : min size (first_null s.input s.input_pos size)
      = first_null s.input s.input_pos size := Nat.min_eq_right (first_null_le _ _ _)
  refine ⟨s1, by rw [hmin]; exact h1, fun hlt => to_int32_of_lt _ hlt, ?_, h2, h3, rfl⟩
  have h4 := to_int32_le (min size (first_null s.input s.input_pos size))
  have h5 : min size (first_null s.input s.input_pos size) ≤ size := Nat.min_le_left _ _
  omega

/-- C10 (amended), instance: the console delivers 104, 105, 0, ...; a read of
up to 8 characters into the buffer at 4096 returns 2 after it stored three
bytes. -/
theorem console_read_returns_stop_index_witness :
    is_user_vaddr sample_config 4096 = true ∧
    first_null (fun j => if j = 0 then 104 else if j = 1 then 105 else 0) 0 8 = 2 ∧
    ∃ s1 : State,
      read sample_config (sample_collab none) 0 4096 8
        (sample_state (sample_thread 0 0) 0 (fun _ => 0)
          (fun j => if j = 0 then 104 else if j = 1 then 105 else 0) [])
        = Outcome.ret 2 s1 ∧
      s1.input_pos = 3 := by
  have hk : first_null (fun j => if j = 0 then 104 else if j = 1 then 105 else 0) 0 8 = 2 := by
    decide
  obtain ⟨s1, h1, _, _, _, h5, h6⟩ := console_read_returns_stop_index sample_config
    (sample_collab none) 4096 8
    (sample_state (sample_thread 0 0) 0 (fun _ => 0)
      (fun j => if j = 0 then 104 else if j = 1 then 105 else 0) []) (by decide)
  refine ⟨by decide, hk, s1, ?_, ?_⟩
  · rw [h1]
    show Outcome.ret (to_int32 (min 8
      (first_null (fun j => if j = 0 then 104 else if j = 1 then 105 else 0) 0 8))) s1 = _
    rw [hk]
    rfl
  · rw [h5, h6]
    show 0 + (if first_null (fun j => if j = 0 then 104 else if j = 1 then 105 else 0) 0 8 < 8
      then first_null (fun j => if j = 0 then 104 else if j = 1 then 105 else 0) 0 8 + 1
      else 8) = 3
    rw [hk]
    rfl

/-- C9, at the failing input: the buffer is the last user address, one byte
below the split at 3221225472, the size is 2 and the console delivers 97, 97.
The buffer address passes the check, `read (0, buf, 2)` does not end in `exit`:
it returns 2 and its second byte is stored at the split itself, which is not a
user address. -/
theorem read_stores_above_split :
    is_user_vaddr sample_config 3221225471 = true ∧
    is_user_vaddr sample_config 3221225472 = false ∧
    (read sample_config (sample_collab none) 0 3221225471 2
      (sample_state (sample_thread 0 0) 0 (fun _ => 0) (fun _ => 97) [])).exit_status? = none ∧
    (read sample_config (sample_collab none) 0 3221225471 2
      (sample_state (sample_thread 0 0) 0 (fun _ => 0) (fun _ => 97) [])).value? = some 2 ∧
    (read sample_config (sample_collab none) 0 3221225471 2
      (sample_state (sample_thread 0 0) 0 (fun _ => 0) (fun _ => 97) [])).state?.map
        (fun s1 => s1.trace)
      = some [Event.lock_acquire,
          Event.input_getc, Event.store8 3221225471 97, Event.load8 3221225471,
          Event.input_getc, Event.store8 3221225472 97, Event.load8 3221225472,
          Event.lock_release] ∧
    (read sample_config (sample_collab none) 0 3221225471 2
      (sample_state (sample_thread 0 0) 0 (fun _ => 0) (fun _ => 97) [])).state?.map
        (fun s1 => s1.mem 3221225472)
      = some 97 := by
  refine ⟨by decide, by decide, by decide, by decide, by decide, by decide⟩

/-! ## Dispatch of the calls with at most three arguments -/

theorem fetch_one (cfg : Config) (s : State) (hesp : s.frame.esp < WORD)
    (hvalid : ∀ i : Nat, 1 ≤ i → i ≤ 1 → is_user_vaddr cfg (arg_addr s.frame.esp i) = true) :
    ∃ arg1 : List Nat,
      get_argument cfg s.frame.esp arg_buffer 1 (emit (Event.load32 s.frame.esp) s)
        = Outcome.ret arg1 (with_events (Event.load32 s.frame.esp :: arg_loads s.frame.esp 0 1) s) ∧
      arg_at arg1 0 = word_at s.mem (arg_addr s.frame.esp 1) := by
  obtain ⟨arg1, hf, ha⟩ := fetch_arguments cfg 1 s hesp (by omega) hvalid
  exact ⟨arg1, hf, ha 0 (by omega)⟩

theorem fetch_two (cfg : Config) (s : State) (hesp : s.frame.esp < WORD)
    (hvalid : ∀ i : Nat, 1 ≤ i → i ≤ 2 → is_user_vaddr cfg (arg_addr s.frame.esp i) = true) :
    ∃ arg1 : List Nat,
      get_argument cfg s.frame.esp arg_buffer 2 (emit (Event.load32 s.frame.esp) s)
        = Outcome.ret arg1 (with_events (Event.load32 s.frame.esp :: arg_loads s.frame.esp 0 2) s) ∧
      arg_at arg1 0 = word_at s.mem (arg_addr s.frame.esp 1) ∧
      arg_at arg1 1 = word_at s.mem (arg_addr s.frame.esp 2) := by
  obtain ⟨arg1, hf, ha⟩ := fetch_arguments cfg 2 s hesp (by omega) hvalid
  exact ⟨arg1, hf, ha 0 (by omega), ha 1 (by omega)⟩

theorem fetch_three (cfg : Config) (s : State) (hesp : s.frame.esp < WORD)
    (hvalid : ∀ i : Nat, 1 ≤ i → i ≤ 3 → is_user_vaddr cfg (arg_addr s.frame.esp i) = true) :
    ∃ arg1 : List Nat,
      get_argument cfg s.frame.esp arg_buffer 3 (emit (Event.load32 s.frame.esp) s)
        = Outcome.ret arg1 (with_events (Event.load32 s.frame.esp :: arg_loads s.frame.esp 0 3) s) ∧
      arg_at arg1 0 = word_at s.mem (arg_addr s.frame.esp 1) ∧
      arg_at arg1 1 = word_at s.mem (arg_addr s.frame.esp 2) ∧
      arg_at arg1 2 = word_at s.mem (arg_addr s.frame.esp 3) := by
  obtain ⟨arg1, hf, ha⟩ := fetch_arguments cfg 3 s hesp (by omega) hvalid
  exact ⟨arg1, hf, ha 0 (by omega), ha 1 (by omega), ha 2 (by omega)⟩

/-- The part of the interface table the dispatcher implements: for each known
call other than `sum_of_four_int`, when the addresses of its argument words are
user addresses, the dispatcher reads the number, fetches exactly `nargs` words
and then does what `perform` describes with them. -/
theorem dispatch_up_to_three_arguments (cfg : Config) (a : Collab) (s : State) (x : Sysno)
    (hesp : s.frame.esp < WORD)
    (hnr : cfg.syscall_nr (word_at s.mem s.frame.esp) = some x)
    (hx : x ≠ Sysno.SYS_SUM_OF_FOUR_INT)
    (hvalid : ∀ i : Nat, 1 ≤ i → i ≤ nargs x →
      is_user_vaddr cfg (arg_addr s.frame.esp i) = true) :
    syscall_handler cfg a s
      = perform cfg a x (word_at s.mem (arg_addr s.frame.esp 1))
          (word_at s.mem (arg_addr s.frame.esp 2)) (word_at s.mem (arg_addr s.frame.esp 3))
          (word_at s.mem (arg_addr s.frame.esp 4))
          (with_events (Event.load32 s.frame.esp :: arg_loads s.frame.esp 0 (nargs x)) s) := by
  cases x
  case SYS_SUM_OF_FOUR_INT => exact absurd rfl hx
  case SYS_HALT =>
    unfold syscall_handler
    simp only [load32, hnr, perform, nargs]
    rfl
  case SYS_CREATE =>
    obtain ⟨arg1, hf, h1, h2⟩ := fetch_two cfg s hesp hvalid
    unfold syscall_handler
    simp only [load32, hnr, hf, Outcome.bind, h1, h2, perform, nargs]
  case SYS_SEEK =>
    obtain ⟨arg1, hf, h1, h2⟩ := fetch_two cfg s hesp hvalid
    unfold syscall_handler
    simp only [load32, hnr, hf, Outcome.bind, h1, h2, perform, nargs]
  case SYS_READ =>
    obtain ⟨arg1, hf, h1, h2, h3⟩ := fetch_three cfg s hesp hvalid
    unfold syscall_handler
    simp only [load32, hnr, hf, Outcome.bind, h1, h2, h3, perform, nargs]
  case SYS_WRITE =>
    obtain ⟨arg1, hf, h1, h2, h3⟩ := fetch_three cfg s hesp hvalid
    unfold syscall_handler
    simp only [load32, hnr, hf, Outcome.bind, h1, h2, h3, perform, nargs]
  all_goals
    obtain ⟨arg1, hf, h1⟩ := fetch_one cfg s hesp hvalid
    unfold syscall_handler
    simp only [load32, hnr, hf, Outcome.bind, h1, perform, nargs]

theorem exit_loop_mem (n : Nat) : ∀ (i : Int) (s : State), (exit_loop n i s).mem = s.mem := by
  induction n with
  | zero => intro i s; rfl
  | succ n ih =>
    intro i s
    rw [exit_loop]
    split
    · rw [ih]; rfl
    · rw [ih]

theorem exit_mem (status : Int) (s : State) : (exit status s).mem = s.mem := by
  show (exit_loop 128 3 _).mem = s.mem
  rw [exit_loop_mem]
  rfl

theorem consumed_le (input : Nat → Nat) (p n : Nat) : consumed input p n ≤ n := by
  unfold consumed
  split <;> omega

theorem consumed_succ_of_null (input : Nat → Nat) (p n : Nat) (h0 : input p % 256 = 0) :
    consumed input p (n + 1) = 1 := by
  unfold consumed
  rw [first_null_succ, if_pos h0]
  simp

theorem consumed_succ_of_not_null (input : Nat → Nat) (p n : Nat) (h0 : ¬ input p % 256 = 0) :
    consumed input p (n + 1) = consumed input (p + 1) n + 1 := by
  unfold consumed
  rw [first_null_succ, if_neg h0]
  by_cases hlt : first_null input (p + 1) n < n
  · rw [if_pos (by omega), if_pos hlt]
  · rw [if_neg (by omega), if_neg hlt]

/-- The console loop of `read` changes memory only where it stores. -/
theorem read_loop_mem (buffer : Nat) (n : Nat) : ∀ (i : Nat) (s : State) (x : Nat),
    (∀ j : Nat, j < consumed s.input s.input_pos n → x ≠ (buffer + (i + j)) % WORD) →
    (read_loop buffer n i s).2.mem x = s.mem x := by
  induction n with
  | zero => intro i s x _; rfl
  | succ n ih =>
    intro i s x hx
    by_cases h0 : s.input s.input_pos % 256 = 0
    · have hc := consumed_succ_of_null s.input s.input_pos n h0
      have hx0 := hx 0 (by omega)
      simp only [Nat.add_zero] at hx0
      simp [read_loop, input_getc, store8, load8, h0, hx0]
    · have hc := consumed_succ_of_not_null s.input s.input_pos n h0
      have hx0 := hx 0 (by omega)
      simp only [Nat.add_zero] at hx0
      have hstep : read_loop buffer (n + 1) i s = read_loop buffer n (i + 1)
          (load8 ((buffer + i) % WORD)
            (store8 ((buffer + i) % WORD) (input_getc s).1 (input_getc s).2)).2 := by
        rw [read_loop]
        simp [input_getc, store8, load8, h0]
      rw [hstep, ih (i + 1) _ x]
      · simp [input_getc, store8, load8, hx0]
      · intro j hj
        have := hx (j + 1) (by
          rw [hc]
          simp only [input_getc, store8, load8, emit_input, emit_input_pos] at hj
          omega)
        rwa [show i + (j + 1) = i + 1 + j by omega] at this

theorem copy_out_mem (buffer : Nat) (data : Nat → Nat) (n : Nat) :
    ∀ (j : Nat) (mem : Nat → Nat) (x : Nat),
      (∀ k : Nat, k < n → x ≠ (buffer + (j + k)) % WORD) →
      copy_out buffer data n j mem x = mem x := by
  induction n with
  | zero => intro j mem x _; rfl
  | succ n ih =>
    intro j mem x hx
    rw [copy_out, ih (j + 1) _ x]
    · have hx0 := hx 0 (by omega)
      simp only [Nat.add_zero] at hx0
      rw [if_neg hx0]
    · intro k hk
      have := hx (k + 1) (by omega)
      rwa [show j + (k + 1) = j + 1 + k by omega] at this

/-- An address that is `buffer + i` modulo `2^32` for some `i < size` is a user
address when the whole buffer lies below the split. -/
theorem buffer_byte_is_user (cfg : Config) (buffer size x : Nat)
    (hfit : buffer + size ≤ cfg.PHYS_BASE)
    (hx : ∃ i : Nat, i < size ∧ x = (buffer + i) % WORD) : is_user_vaddr cfg x = true := by
  obtain ⟨i, hi, rfl⟩ := hx
  have : (buffer + i) % WORD ≤ buffer + i := Nat.mod_le _ _
  simp only [is_user_vaddr, decide_eq_true_eq]
  omega

/-- Where `read` stores: on descriptor 0 or on a descriptor of 3..130 it checks
the address `buf` only. When `buf` is not a user address the call ends in
`exit (-1)` and nothing is stored. When it is one, the bytes stored are at
addresses `buf + i` with `i < size` (the filesystem transferring at most `size`
bytes) and nowhere else, so no byte is written at or above the split provided
`buf + size` does not exceed the split. -/
theorem read_stores_inside_buffer (cfg : Config) (a : Collab) (fd : Int) (buffer size : Nat)
    (s : State) (hfd : fd = 0 ∨ (3 ≤ fd ∧ fd < 131)) (hcount : a.file_read ≤ (size : Int)) :
    (is_user_vaddr cfg buffer = false →
      read cfg a fd buffer size s = Outcome.exited (exit (-1) s) ∧
      (read cfg a fd buffer size s).exit_status? = some (-1) ∧
      (exit (-1) s).mem = s.mem) ∧
    (is_user_vaddr cfg buffer = true →
      ∃ s1 : State, (read cfg a fd buffer size s).state? = some s1 ∧
        (∀ x : Nat, s1.mem x ≠ s.mem x → ∃ i : Nat, i < size ∧ x = (buffer + i) % WORD) ∧
        (buffer + size ≤ cfg.PHYS_BASE →
          ∀ x : Nat, s1.mem x ≠ s.mem x → is_user_vaddr cfg x = true)) := by
  constructor
  · intro hbad
    have hr : read cfg a fd buffer size s = Outcome.exited (exit (-1) s) := by
      unfold read
      simp [hbad]
    refine ⟨hr, ?_, exit_mem _ _⟩
    rw [hr]; exact exit_status_of_exit _ _
  · intro hbuf
    have key : ∃ s1 : State, (read cfg a fd buffer size s).state? = some s1 ∧
        (∀ x : Nat, s1.mem x ≠ s.mem x → ∃ i : Nat, i < size ∧ x = (buffer + i) % WORD) := by
      rcases hfd with h0 | ⟨h3, h131⟩
      · subst h0
        refine ⟨lock_release (read_loop buffer size 0 (lock_acquire s)).2, ?_, ?_⟩
        · rw [read_console cfg a buffer size s hbuf]; rfl
        · intro x hx
          by_contra hcon
          push_neg at hcon
          apply hx
          have := read_loop_mem buffer size 0 (lock_acquire s) x (fun j hj => by
            have hle := consumed_le (lock_acquire s).input (lock_acquire s).input_pos size
            have := hcon j (by omega)
            simpa using this)
          simpa [lock_release, lock_acquire] using this
      · have hne0 : fd ≠ 0 := by omega
        have hin : (0 : Int) ≤ fd ∧ fd < 131 := by omega
        cases hs : (lock_acquire s).cur.file_list ⟨fd.toNat, by omega⟩ with
        | none =>
          have hslot : slot (lock_acquire s).cur fd = some none := by
            rw [slot_in _ _ hin, hs]
          refine ⟨exit (-1) (lock_acquire s), ?_, ?_⟩
          · unfold read
            simp only [hbuf, hne0, h3, ge_iff_le]
            simp only [hslot]
            simp [Outcome.state?]
          · intro x hx
            exfalso
            apply hx
            rw [exit_mem]
            rfl
        | some h =>
          have hslot : slot (lock_acquire s).cur fd = some (some h) := by
            rw [slot_in _ _ hin, hs]
          refine ⟨lock_release (file_read a h buffer (to_int32 size) (lock_acquire s)).2, ?_, ?_⟩
          · unfold read
            simp only [hbuf, hne0, h3, ge_iff_le]
            simp only [hslot]
            simp [Outcome.state?]
          · intro x hx
            by_contra hcon
            push_neg at hcon
            apply hx
            have := copy_out_mem buffer a.file_read_data a.file_read.toNat 0 s.mem x
              (fun k hk => by
                have := hcon k (by omega)
                simpa using this)
            simpa [lock_release, lock_acquire, file_read] using this
    obtain ⟨s1, h1, h2⟩ := key
    exact ⟨s1, h1, h2, fun hfit x hx => buffer_byte_is_user cfg buffer size x hfit (h2 x hx)⟩

/-- Instance of where `read` stores: two characters from the console into the
buffer at 4096. -/
theorem read_stores_inside_buffer_witness :
    is_user_vaddr sample_config 4096 = true ∧
    ∃ s1 : State,
      (read sample_config (sample_collab none) 0 4096 2
        (sample_state (sample_thread 0 0) 0 (fun _ => 0) (fun _ => 97) [])).state? = some s1 ∧
      ∀ x : Nat, s1.mem x ≠ 0 → is_user_vaddr sample_config x = true := by
  obtain ⟨s1, h1, _, h3⟩ := (read_stores_inside_buffer sample_config (sample_collab none) 0 4096 2
    (sample_state (sample_thread 0 0) 0 (fun _ => 0) (fun _ => 97) [])
    (Or.inl rfl) (by decide)).2 (by decide)
  exact ⟨by decide, s1, h1, fun x hx => h3 (by decide) x hx⟩

/-! ## The reserved slots stay empty -/

theorem ends_with_ret {α : Type} (P : State → Prop) (v : α) (s : State) (h : P s) :
    (Outcome.ret v s).ends_with P := by
  intro s1 hs
  injection hs with hs
  rw [← hs]; exact h

theorem ends_with_exited {α : Type} (P : State → Prop) (s : State) (h : P s) :
    (Outcome.exited s : Outcome α).ends_with P := by
  intro s1 hs
  injection hs with hs
  rw [← hs]; exact h

theorem ends_with_undefined {α : Type} (P : State → Prop) :
    (Outcome.undefined : Outcome α).ends_with P := by
  intro s1 hs
  exact Option.noConfusion hs

theorem ends_with_bind {α β : Type} (P : State → Prop) (o : Outcome α)
    (k : α → State → Outcome β) (ho : o.ends_with P)
    (hk : ∀ (v : α) (s : State), P s → (k v s).ends_with P) : (o.bind k).ends_with P := by
  cases o with
  | ret v s => exact hk v s (ho s rfl)
  | exited s => exact ends_with_exited P s (ho s rfl)
  | killed s => intro s1 hs; injection hs with hs; rw [← hs]; exact ho s rfl
  | halted s => intro s1 hs; injection hs with hs; rw [← hs]; exact ho s rfl
  | undefined => exact ends_with_undefined P

theorem reserved_empty_exit (status : Int) (s : State) (h : reserved_empty s.cur) :
    reserved_empty (exit status s).cur := by
  intro j h0 h3
  rw [(exit_spec status s).2.2.2.1 j (by omega)]
  exact h j h0 h3

theorem reserved_empty_set_slot (t : thread) (fd : Int) (v : Option Handle)
    (h : reserved_empty t) (hfd : 3 ≤ fd ∨ v = none) : reserved_empty (set_slot t fd v) := by
  intro j h0 h3
  by_cases hj : j = fd
  · rcases hfd with hfd | hfd
    · omega
    · subst hj
      rw [slot_set_slot_same _ _ _ (by omega), hfd]
  · rw [slot_set_slot_other _ _ _ _ hj]
    exact h j h0 h3

theorem reserved_empty_open_loop (a : Collab) (f : Handle) (n : Nat) :
    ∀ (i : Int) (s : State) (r : Int) (s1 : State), 3 ≤ i → reserved_empty s.cur →
      open_loop a f n i s = some (r, s1) → reserved_empty s1.cur := by
  induction n with
  | zero =>
    intro i s r s1 _ h hrun
    injection hrun with hrun
    injection hrun with _ hs
    rw [← hs]; exact h
  | succ n ih =>
    intro i s r s1 hi h hrun
    rw [open_loop] at hrun
    split at hrun
    · exact Option.noConfusion hrun
    · injection hrun with hrun
      injection hrun with _ hs
      rw [← hs]
      show reserved_empty (set_slot (if a.strcmp = 0 then file_deny_write f s else s).cur i _)
      apply reserved_empty_set_slot _ _ _ _ (Or.inl hi)
      split <;> exact h
    · exact ih (i + 1) s r s1 (by omega) h hrun

theorem reserved_empty_open (a : Collab) (path : Nat) (s : State) (h : reserved_empty s.cur) :
    (open_ a path s).ends_with fun s1 => reserved_empty s1.cur := by
  unfold open_ filesys_open
  cases hf : a.filesys_open with
  | none => exact ends_with_ret _ _ _ h
  | some f =>
    simp only []
    cases hl : open_loop a f 128 3
        (emit (Event.filesys_open path)
          { (lock_acquire s) with live := f :: (lock_acquire s).live }) with
    | none => exact ends_with_undefined _
    | some p =>
      obtain ⟨r, s3⟩ := p
      have h2 : reserved_empty (emit (Event.filesys_open path)
          { (lock_acquire s) with live := f :: (lock_acquire s).live }).cur := h
      exact ends_with_ret _ _ _ (reserved_empty_open_loop a f 128 3 _ r s3 (by omega) h2 hl)

theorem reserved_empty_close (fd : Int) (s : State) (h : reserved_empty s.cur) :
    (close fd s).ends_with fun s1 => reserved_empty s1.cur := by
  unfold close
  split
  · exact ends_with_undefined _
  · exact ends_with_exited _ _ (reserved_empty_exit _ _ h)
  · exact ends_with_ret _ _ _ (reserved_empty_set_slot _ _ _ h (Or.inr rfl))

theorem reserved_empty_read (cfg : Config) (a : Collab) (fd : Int) (buffer size : Nat)
    (s : State) (h : reserved_empty s.cur) :
    (read cfg a fd buffer size s).ends_with fun s1 => reserved_empty s1.cur := by
  unfold read
  split
  · exact ends_with_exited _ _ (reserved_empty_exit _ _ h)
  · simp only []
    split
    · apply ends_with_ret
      show reserved_empty (read_loop buffer size 0 (lock_acquire s)).2.cur
      rw [(read_loop_spec buffer size 0 (lock_acquire s)).2.2.2.2.1]
      exact h
    · split
      · split
        · exact ends_with_undefined _
        · exact ends_with_exited _ _ (reserved_empty_exit _ _ h)
        · exact ends_with_ret _ _ _ h
      · exact ends_with_ret _ _ _ h

theorem reserved_empty_write (cfg : Config) (a : Collab) (fd : Int) (buffer size : Nat)
    (s : State) (h : reserved_empty s.cur) :
    (write cfg a fd buffer size s).ends_with fun s1 => reserved_empty s1.cur := by
  unfold write
  split
  · exact ends_with_exited _ _ (reserved_empty_exit _ _ h)
  · simp only []
    split
    · exact ends_with_ret _ _ _ h
    · split
      · split
        · exact ends_with_undefined _
        · exact ends_with_exited _ _ (reserved_empty_exit _ _ h)
        · apply ends_with_ret
          show reserved_empty (if (lock_acquire s).files _ |>.deny_write
            then file_deny_write _ (lock_acquire s) else lock_acquire s).cur
          split <;> exact h
      · exact ends_with_ret _ _ _ h

theorem reserved_empty_get_argument_loop (cfg : Config) (n : Nat) :
    ∀ (i esp : Nat) (arg : List Nat) (s : State), reserved_empty s.cur →
      (get_argument_loop cfg n i esp arg s).ends_with fun s1 => reserved_empty s1.cur := by
  induction n with
  | zero => intro i esp arg s h; exact ends_with_ret _ _ _ h
  | succ n ih =>
    intro i esp arg s h
    rw [get_argument_loop]
    simp only []
    split
    · exact ends_with_exited _ _ (reserved_empty_exit _ _ h)
    · split
      · exact ih _ _ _ _ h
      · exact ends_with_undefined _

theorem reserved_empty_filesize (a : Collab) (fd : Int) (s : State) (h : reserved_empty s.cur) :
    (filesize a fd s).ends_with fun s1 => reserved_empty s1.cur := by
  unfold filesize
  split
  · exact ends_with_undefined _
  · exact ends_with_exited _ _ (reserved_empty_exit _ _ h)
  · exact ends_with_ret _ _ _ h

theorem reserved_empty_seek (fd : Int) (pos : Nat) (s : State) (h : reserved_empty s.cur) :
    (seek fd pos s).ends_with fun s1 => reserved_empty s1.cur := by
  unfold seek
  split
  · exact ends_with_undefined _
  · exact ends_with_exited _ _ (reserved_empty_exit _ _ h)
  · exact ends_with_ret _ _ _ h

theorem reserved_empty_tell (a : Collab) (fd : Int) (s : State) (h : reserved_empty s.cur) :
    (tell a fd s).ends_with fun s1 => reserved_empty s1.cur := by
  unfold tell
  split
  · exact ends_with_undefined _
  · exact ends_with_exited _ _ (reserved_empty_exit _ _ h)
  · exact ends_with_ret _ _ _ h

theorem reserved_empty_set_eax {α : Type} (o : Outcome α) (f : α → Nat)
    (h : o.ends_with fun s1 => reserved_empty s1.cur) :
    (o.bind fun r s2 => Outcome.ret () (set_eax (f r) s2)).ends_with
      fun s1 => reserved_empty s1.cur :=
  ends_with_bind _ o _ h fun _ _ hs => ends_with_ret _ _ _ hs

/-- The reserved slots 0, 1 and 2 of the descriptor table stay empty through
any system call: no path of the dispatcher stores a handle there. -/
theorem reserved_slots_stay_empty (cfg : Config) (a : Collab) (s : State)
    (h : reserved_empty s.cur) :
    (syscall_handler cfg a s).ends_with fun s1 => reserved_empty s1.cur := by
  have hfetch : ∀ count : Int,
      (get_argument cfg s.frame.esp arg_buffer count (emit (Event.load32 s.frame.esp) s)).ends_with
        fun s1 => reserved_empty s1.cur :=
    fun count => reserved_empty_get_argument_loop cfg _ _ _ _ _ h
  unfold syscall_handler
  simp only [load32]
  split
  · intro s1 hs
    injection hs with hs
    rw [← hs]; exact h
  · exact ends_with_bind _ _ _ (hfetch 1) fun _ _ h1 =>
      ends_with_exited _ _ (reserved_empty_exit _ _ h1)
  · exact ends_with_bind _ _ _ (hfetch 1) fun _ _ h1 =>
      reserved_empty_set_eax _ _ (ends_with_ret _ _ _ h1)
  · exact ends_with_bind _ _ _ (hfetch 1) fun _ _ h1 =>
      reserved_empty_set_eax _ _ (ends_with_ret _ _ _ h1)
  · refine ends_with_bind _ _ _ (hfetch 2) fun arg s1 h1 => ?_
    split
    · exact ends_with_exited _ _ (reserved_empty_exit _ _ h1)
    · exact reserved_empty_set_eax _ _ (ends_with_ret _ _ _ h1)
  · refine ends_with_bind _ _ _ (hfetch 1) fun arg s1 h1 => ?_
    split
    · exact ends_with_exited _ _ (reserved_empty_exit _ _ h1)
    · exact reserved_empty_set_eax _ _ (ends_with_ret _ _ _ h1)
  · refine ends_with_bind _ _ _ (hfetch 1) fun arg s1 h1 => ?_
    split
    · exact ends_with_exited _ _ (reserved_empty_exit _ _ h1)
    · exact reserved_empty_set_eax _ _ (reserved_empty_open _ _ _ h1)
  · exact ends_with_bind _ _ _ (hfetch 1) fun _ _ h1 => reserved_empty_close _ _ h1
  · exact ends_with_bind _ _ _ (hfetch 1) fun _ _ h1 =>
      reserved_empty_set_eax _ _ (reserved_empty_filesize _ _ _ h1)
  · exact ends_with_bind _ _ _ (hfetch 3) fun _ _ h1 =>
      reserved_empty_set_eax _ _ (reserved_empty_read _ _ _ _ _ _ h1)
  · exact ends_with_bind _ _ _ (hfetch 3) fun _ _ h1 =>
      reserved_empty_set_eax _ _ (reserved_empty_write _ _ _ _ _ _ h1)
  · exact ends_with_bind _ _ _ (hfetch 2) fun _ _ h1 => reserved_empty_seek _ _ _ h1
  · exact ends_with_bind _ _ _ (hfetch 1) fun _ _ h1 =>
      reserved_empty_set_eax _ (fun r => r) (reserved_empty_tell _ _ _ h1)
  · refine ends_with_bind _ _ _ (hfetch 1) fun arg s1 h1 => ?_
    refine reserved_empty_set_eax _ _ ?_
    unfold fibonacci
    split <;> exact ends_with_ret _ _ _ h1
  · exact ends_with_bind _ _ _ (hfetch 4) fun _ _ h1 =>
      reserved_empty_set_eax _ _ (ends_with_ret _ _ _ h1)
  · intro s1 hs
    injection hs with hs
    rw [← hs]; exact h

/-! ## 32-bit signed results -/

theorem wrap32_eq (v : Int) :
    wrap32 v = if v % 4294967296 < 2147483648 then v % 4294967296
      else v % 4294967296 - 4294967296 := by
  unfold wrap32 to_int32 to_uint32 WORD
  have h0 : 0 ≤ v % 4294967296 := Int.emod_nonneg _ (by decide)
  have h1 : v % 4294967296 < 4294967296 := Int.emod_lt_of_pos _ (by decide)
  have hn : (((v % 4294967296).toNat : Nat) : Int) = v % 4294967296 := Int.toNat_of_nonneg h0
  have hm : (v % 4294967296).toNat % 4294967296 = (v % 4294967296).toNat := by
    apply Nat.mod_eq_of_lt
    omega
  rw [hm, hn]
  by_cases h : v % 4294967296 < 2147483648
  · rw [if_pos h, if_pos (by omega)]
  · rw [if_neg h, if_neg (by omega)]

theorem wrap32_of_range (v : Int) (h0 : -2147483648 ≤ v) (h1 : v < 2147483648) :
    wrap32 v = v := by
  rw [wrap32_eq]
  split <;> omega

theorem wrap32_add (a b : Int) : wrap32 (wrap32 a + wrap32 b) = wrap32 (a + b) := by
  simp only [wrap32_eq]
  split <;> split <;> split <;> split <;> omega

theorem wrap32_add_left (a b : Int) : wrap32 (wrap32 a + b) = wrap32 (a + b) := by
  simp only [wrap32_eq]
  split <;> split <;> split <;> omega

theorem wrap32_range (v : Int) : -2147483648 ≤ wrap32 v ∧ wrap32 v < 2147483648 := by
  rw [wrap32_eq]
  split <;> omega

/-! ## Console output -/

theorem to_int32_eq_neg_one (size : Nat) (hsize : size < 4294967296) :
    to_int32 size = -1 ↔ size = 4294967295 := by
  unfold to_int32 WORD
  have hm : size % 4294967296 = size := Nat.mod_eq_of_lt hsize
  rw [hm]
  split <;> omega

/-- C11 (counterexample): the buffer is the user address 4096 and the size is
`2^32 - 1`; `write (1, buf, size)` hands the `size` bytes to the console and
returns -1, not `size`. -/
theorem console_write_reports_minus_one :
    is_user_vaddr sample_config 4096 = true ∧
    (write sample_config (sample_collab none) 1 4096 4294967295
      (sample_state (sample_thread 0 0) 0 (fun _ => 0) (fun _ => 0) [])).value? = some (-1) ∧
    (write sample_config (sample_collab none) 1 4096 4294967295
      (sample_state (sample_thread 0 0) 0 (fun _ => 0) (fun _ => 0) [])).value?
      ≠ some 4294967295 ∧
    (write sample_config (sample_collab none) 1 4096 4294967295
      (sample_state (sample_thread 0 0) 0 (fun _ => 0) (fun _ => 0) [])).state?.map
        (fun s1 => s1.trace)
      = some [Event.lock_acquire, Event.putbuf 4096 4294967295, Event.lock_release] := by
  refine ⟨by decide, by decide, by decide, by decide⟩

/-- C11 (amended): with a buffer at a user address and a 32-bit size,
`write (1, buf, size)` hands exactly `size` bytes to the console, under the
lock, and returns `size` converted to `int`: this is `size` itself when `size`
is below `2^31`, and it is the value -1 exactly for `size = 2^32 - 1`. -/
theorem console_write_returns_size_as_int (cfg : Config) (a : Collab) (buffer size : Nat)
    (s : State) (hbuf : is_user_vaddr cfg buffer = true) (hsize : size < 4294967296) :
    ∃ s1 : State,
      write cfg a 1 buffer size s = Outcome.ret (to_int32 size) s1 ∧
      events_since s s1
        = [Event.lock_acquire, Event.putbuf buffer size, Event.lock_release] ∧
      (size < 2147483648 → to_int32 size = (size : Int)) ∧
      (to_int32 size = -1 ↔ size = 4294967295) := by
  refine ⟨lock_release (emit (Event.putbuf buffer size) (lock_acquire s)),
    write_console cfg a buffer size s hbuf, ?_, to_int32_of_lt size,
    to_int32_eq_neg_one size hsize⟩
  unfold events_since
  simp [lock_release, lock_acquire]

/-- C11 (amended), instance: five bytes from the buffer at 4096. -/
theorem console_write_returns_size_as_int_witness :
    is_user_vaddr sample_config 4096 = true ∧
    ∃ s1 : State,
      write sample_config (sample_collab none) 1 4096 5
        (sample_state (sample_thread 0 0) 0 (fun _ => 0) (fun _ => 0) []) = Outcome.ret 5 s1 ∧
      events_since (sample_state (sample_thread 0 0) 0 (fun _ => 0) (fun _ => 0) []) s1
        = [Event.lock_acquire, Event.putbuf 4096 5, Event.lock_release] := by
  obtain ⟨s1, h1, h2, _, _⟩ := console_write_returns_size_as_int sample_config
    (sample_collab none) 4096 5
    (sample_state (sample_thread 0 0) 0 (fun _ => 0) (fun _ => 0) []) (by decide) (by decide)
  exact ⟨by decide, s1, h1, h2⟩

/-! ## The arithmetic calls -/

theorem classic_term_add_two (m : Nat) :
    classic_term (m + 2) = classic_term (m + 1) + classic_term m := by
  rw [classic_term]

/-- The loop of `fibonacci` advances the pair of consecutive terms. -/
theorem fibonacci_loop_spec (k : Nat) : ∀ m : Nat,
    fibonacci_loop k (wrap32 (classic_term m)) (wrap32 (classic_term (m + 1)))
      = wrap32 (classic_term (m + 1 + k)) := by
  induction k with
  | zero => intro m; rfl
  | succ k ih =>
    intro m
    rw [fibonacci_loop, wrap32_add]
    have h : ((classic_term m : Nat) : Int) + ((classic_term (m + 1) : Nat) : Int)
        = ((classic_term (m + 1 + 1) : Nat) : Int) := by
      rw [classic_term_add_two]
      push_cast
      omega
    rw [h, ih (m + 1)]
    congr 3
    omega

/-- The value `fibonacci` computes. -/
theorem fibonacci_value (n : Nat) (s : State) (h1 : 1 ≤ n) (hmax : n < 2147483648) :
    fibonacci (n : Int) s
      = Outcome.ret (wrap32 (classic_term n))
          (emit (Event.printf_fibonacci (wrap32 (classic_term n))) s) := by
  unfold fibonacci
  by_cases h12 : n = 1 ∨ n = 2
  · have hterm : wrap32 (classic_term n) = 1 := by
      rcases h12 with h | h <;> subst h <;> decide
    have hcond : ((n : Int) = 1 ∨ (n : Int) = 2) := by omega
    rw [if_pos hcond, hterm]
  · have hcond : ¬ ((n : Int) = 1 ∨ (n : Int) = 2) := by omega
    rw [if_neg hcond]
    have hcount : (wrap32 ((n : Int) - 2)).toNat = n - 2 := by
      rw [wrap32_of_range _ (by omega) (by omega)]
      omega
    have hloop := fibonacci_loop_spec (n - 2) 1
    have h1' : wrap32 (classic_term 1) = 1 := by decide
    have h2' : wrap32 (classic_term (1 + 1)) = 1 := by decide
    rw [h1', h2', show 1 + 1 + (n - 2) = n by omega] at hloop
    simp only [hcount, hloop]

/-- C13: for `1 ≤ n` (an `int`, so below `2^31`), `fibonacci (n)` returns the
`n`-th term of the recurrence with first and second term 1, reduced modulo
`2^32` into the signed range, after printing it. -/
theorem fibonacci_returns_nth_term (n : Nat) (s : State) (h1 : 1 ≤ n)
    (hmax : n < 2147483648) :
    fibonacci (n : Int) s
      = Outcome.ret (wrap32 (classic_term n))
          (emit (Event.printf_fibonacci (wrap32 (classic_term n))) s) ∧
    classic_term 1 = 1 ∧ classic_term 2 = 1 ∧
    (∀ k : Nat, classic_term (k + 2) = classic_term (k + 1) + classic_term k) ∧
    (wrap32 (classic_term n) - (classic_term n : Int)) % 4294967296 = 0 ∧
    -2147483648 ≤ wrap32 (classic_term n) ∧ wrap32 (classic_term n) < 2147483648 := by
  refine ⟨fibonacci_value n s h1 hmax, rfl, rfl, classic_term_add_two, ?_,
    (wrap32_range _).1, (wrap32_range _).2⟩
  rw [wrap32_eq]
  split <;> omega

/-- C13, instance: the seventh term is 13, and the 48th term 4807526976 is
returned as 512559680. -/
theorem fibonacci_returns_nth_term_witness :
    (fibonacci 7 (sample_state (sample_thread 0 0) 0 (fun _ => 0) (fun _ => 0) [])).value?
      = some 13 ∧
    classic_term 48 = 4807526976 ∧
    (fibonacci 48 (sample_state (sample_thread 0 0) 0 (fun _ => 0) (fun _ => 0) [])).value?
      = some 512559680 := by
  have h7 := (fibonacci_returns_nth_term 7
    (sample_state (sample_thread 0 0) 0 (fun _ => 0) (fun _ => 0) []) (by decide) (by decide)).1
  have h48 := (fibonacci_returns_nth_term 48
    (sample_state (sample_thread 0 0) 0 (fun _ => 0) (fun _ => 0) []) (by decide) (by decide)).1
  have hc : classic_term 48 = 4807526976 := by decide
  refine ⟨?_, hc, ?_⟩
  · rw [show ((7 : Nat) : Int) = 7 from rfl] at h7
    rw [h7]
    decide
  · rw [show ((48 : Nat) : Int) = 48 from rfl] at h48
    rw [h48, hc]
    decide

/-- C14 (counterexample): `fibonacci (10)` returns 55, not 34. -/
theorem fibonacci_ten_counterexample :
    (fibonacci 10 (sample_state (sample_thread 0 0) 0 (fun _ => 0) (fun _ => 0) [])).value?
      = some 55 ∧
    (fibonacci 10 (sample_state (sample_thread 0 0) 0 (fun _ => 0) (fun _ => 0) [])).value?
      ≠ some 34 := by
  refine ⟨by decide, by decide⟩

/-- C14 (amended): `fibonacci (1) == 1`, `fibonacci (2) == 1` and
`fibonacci (10) == 55`; 34 is `fibonacci (9)`. -/
theorem fibonacci_examples (s : State) :
    (fibonacci 1 s).value? = some 1 ∧ (fibonacci 2 s).value? = some 1 ∧
    (fibonacci 10 s).value? = some 55 ∧ (fibonacci 9 s).value? = some 34 := by
  refine ⟨rfl, rfl, ?_, ?_⟩
  · have h : fibonacci_loop (wrap32 (10 - 2)).toNat 1 1 = 55 := by decide
    unfold fibonacci
    rw [if_neg (by decide)]
    simp only [h]
    rfl
  · have h : fibonacci_loop (wrap32 (9 - 2)).toNat 1 1 = 34 := by decide
    unfold fibonacci
    rw [if_neg (by decide)]
    simp only [h]
    rfl

theorem sum_of_four_int_value (a b c d : Int) (s : State) :
    sum_of_four_int a b c d s
      = Outcome.ret (wrap32 (a + b + c + d))
          (emit (Event.printf_sum (wrap32 (a + b + c + d))) s) := by
  unfold sum_of_four_int
  simp only [wrap32_add_left]

/-- C15: `sum_of_four_int (a, b, c, d)` returns `a + b + c + d` reduced modulo
`2^32` into the signed 32-bit range, after printing it; so
`sum_of_four_int (1, 2, 3, 4)` is 10, `sum_of_four_int (INT_MAX, 1, 0, 0)` is
`INT_MIN`, and the value is the same for the four arguments in any order. -/
theorem sum_of_four_int_wraps (a b c d : Int) (s : State) :
    sum_of_four_int a b c d s
      = Outcome.ret (wrap32 (a + b + c + d))
          (emit (Event.printf_sum (wrap32 (a + b + c + d))) s) ∧
    (wrap32 (a + b + c + d) - (a + b + c + d)) % 4294967296 = 0 ∧
    -2147483648 ≤ wrap32 (a + b + c + d) ∧ wrap32 (a + b + c + d) < 2147483648 ∧
    (sum_of_four_int 1 2 3 4 s).value? = some 10 ∧
    (sum_of_four_int 2147483647 1 0 0 s).value? = some (-2147483648) ∧
    (∀ a1 b1 c1 d1 : Int, List.Perm [a1, b1, c1, d1] [a, b, c, d] →
      (sum_of_four_int a1 b1 c1 d1 s).value? = (sum_of_four_int a b c d s).value?) := by
  refine ⟨sum_of_four_int_value a b c d s, ?_, (wrap32_range _).1, (wrap32_range _).2, ?_, ?_, ?_⟩
  · rw [wrap32_eq]
    split <;> omega
  · rw [sum_of_four_int_value]
    show some (wrap32 (1 + 2 + 3 + 4)) = some 10
    decide
  · rw [sum_of_four_int_value]
    show some (wrap32 (2147483647 + 1 + 0 + 0)) = some (-2147483648)
    decide
  · intro a1 b1 c1 d1 hperm
    rw [sum_of_four_int_value, sum_of_four_int_value]
    have hsum := hperm.sum_eq
    simp only [List.sum_cons, List.sum_nil, add_zero] at hsum
    show some (wrap32 (a1 + b1 + c1 + d1)) = some (wrap32 (a + b + c + d))
    rw [show a1 + b1 + c1 + d1 = a + b + c + d by omega]

/-- C15, instance: the arguments 4, 3, 2, 1 are 1, 2, 3, 4 in another order and
give 10 as well. -/
theorem sum_of_four_int_wraps_witness :
    List.Perm [(4 : Int), 3, 2, 1] [1, 2, 3, 4] ∧
    (sum_of_four_int 4 3 2 1
      (sample_state (sample_thread 0 0) 0 (fun _ => 0) (fun _ => 0) [])).value? = some 10 := by
  have hperm : List.Perm [(4 : Int), 3, 2, 1] [1, 2, 3, 4] := by decide
  have h := sum_of_four_int_wraps 1 2 3 4
    (sample_state (sample_thread 0 0) 0 (fun _ => 0) (fun _ => 0) [])
  exact ⟨hperm, (h.2.2.2.2.2.2 4 3 2 1 hperm).trans h.2.2.2.2.1⟩

/-! ## Closing a descriptor -/

theorem is_open_of_slot_empty (t : thread) (fd : Int) (h : slot t fd = some none) :
    is_open t fd = false := by
  unfold is_open
  rw [h]

theorem descriptor_calls_of_empty (a : Collab) (fd : Int) (pos : Nat) (s : State)
    (hs : slot s.cur fd = some none) :
    tell a fd s = Outcome.exited (exit (-1) s) ∧
    seek fd pos s = Outcome.exited (exit (-1) s) ∧
    filesize a fd s = Outcome.exited (exit (-1) s) := by
  refine ⟨?_, ?_, ?_⟩
  · unfold tell; rw [hs]
  · unfold seek; rw [hs]
  · unfold filesize; rw [hs]

theorem read_write_of_empty (cfg : Config) (a : Collab) (fd : Int) (buffer size : Nat)
    (s : State) (h3 : 3 ≤ fd) (hs : slot s.cur fd = some none) :
    (read cfg a fd buffer size s).exit_status? = some (-1) ∧
    (write cfg a fd buffer size s).exit_status? = some (-1) := by
  have hne0 : fd ≠ 0 := by omega
  have hne1 : fd ≠ 1 := by omega
  have hs1 : slot (lock_acquire s).cur fd = some none := hs
  cases hb : is_user_vaddr cfg buffer with
  | false =>
    have hr : read cfg a fd buffer size s = Outcome.exited (exit (-1) s) := by
      unfold read
      simp [hb]
    have hw : write cfg a fd buffer size s = Outcome.exited (exit (-1) s) := by
      unfold write
      simp [hb]
    rw [hr, hw]
    exact ⟨exit_status_of_exit _ _, exit_status_of_exit _ _⟩
  | true =>
    have hr : read cfg a fd buffer size s = Outcome.exited (exit (-1) (lock_acquire s)) := by
      unfold read
      simp only [hb, hne0, h3, ge_iff_le]
      simp only [hs1]
      simp
    have hw : write cfg a fd buffer size s
        = Outcome.exited (exit (-1) (lock_release (lock_acquire s))) := by
      unfold write
      simp only [hb, hne1, h3, ge_iff_le]
      simp only [hs1]
      simp
    rw [hr, hw]
    exact ⟨exit_status_of_exit _ _, exit_status_of_exit _ _⟩

/-- C12: for a descriptor `fd` whose slot holds the handle `h`, `close (fd)`
returns; its only event is one `file_close h`, slot `fd` is empty afterwards
and every other slot is as before. Then `fd` maps to no live handle, and
`tell`, `close`, `seek` and `filesize` on `fd` end in `exit (-1)`; so do `read`
and `write` on `fd`, the reserved slots 0..2 being empty as they always are. -/
theorem close_releases_and_clears (fd : Int) (h : Handle) (s : State)
    (hlive : slot s.cur fd = some (some h)) :
    ∃ s1 : State,
      close fd s = Outcome.ret () s1 ∧
      events_since s s1 = [Event.file_close h] ∧
      s1.live = s.live.erase h ∧
      slot s1.cur fd = some none ∧
      (∀ j : Int, j ≠ fd → slot s1.cur j = slot s.cur j) ∧
      is_open s1.cur fd = false ∧
      (∀ (a : Collab) (pos : Nat),
        tell a fd s1 = Outcome.exited (exit (-1) s1) ∧
        close fd s1 = Outcome.exited (exit (-1) s1) ∧
        seek fd pos s1 = Outcome.exited (exit (-1) s1) ∧
        filesize a fd s1 = Outcome.exited (exit (-1) s1) ∧
        (exit (-1) s1).cur.exit_status = -1) ∧
      (reserved_empty s.cur → ∀ (cfg : Config) (a : Collab) (buffer size : Nat),
        (read cfg a fd buffer size s1).exit_status? = some (-1) ∧
        (write cfg a fd buffer size s1).exit_status? = some (-1)) := by
  have hin : 0 ≤ fd ∧ fd < 131 := by
    by_contra hcon
    rw [slot_out _ _ hcon] at hlive
    exact Option.noConfusion hlive
  have hempty : slot (close_live fd h s).cur fd = some none := by
    rw [close_live_cur, slot_set_slot_same _ _ _ hin]
  have hclosed := is_open_of_slot_empty _ _ hempty
  refine ⟨close_live fd h s, close_of_live fd h s hlive, ?_, rfl, hempty, ?_, hclosed, ?_, ?_⟩
  · unfold events_since
    rw [close_live_trace, List.drop_left]
  · intro j hj
    rw [close_live_cur, slot_set_slot_other _ _ _ _ hj]
  · intro a pos
    have hall := descriptor_calls_of_empty a fd pos (close_live fd h s) hempty
    exact ⟨hall.1, close_of_empty fd _ hempty, hall.2.1, hall.2.2, (exit_spec (-1) _).1⟩
  · intro hres cfg a buffer size
    have h3 : 3 ≤ fd := by
      by_contra hcon
      have := hres fd hin.1 (by omega)
      rw [this] at hlive
      exact Option.noConfusion (Option.some.inj hlive)
    exact read_write_of_empty cfg a fd buffer size (close_live fd h s) h3 hempty

/-- C12, instance: `close (3)` in a process with descriptors 3 and 4 open, then
`tell (3)` and `read (3, buf, 1)`. -/
theorem close_releases_and_clears_witness :
    slot (sample_thread 3 5) 3 = some (some 103) ∧
    ∃ s1 : State,
      close 3 (sample_state (sample_thread 3 5) 0 (fun _ => 0) (fun _ => 0) [103, 104])
        = Outcome.ret () s1 ∧
      s1.live = [104] ∧
      slot s1.cur 4 = some (some 104) ∧
      (tell (sample_collab none) 3 s1).exit_status? = some (-1) ∧
      (read sample_config (sample_collab none) 3 4096 1 s1).exit_status? = some (-1) := by
  have hlive : slot (sample_thread 3 5) 3 = some (some 103) := by decide
  have hres : reserved_empty (sample_thread 3 5) := by
    intro i h0 h3
    rw [slot_in _ _ (by omega)]
    have : ¬ (3 ≤ i.toNat ∧ i.toNat < 5) := by omega
    simp [sample_thread, this]
  obtain ⟨s1, h1, _, h3, _, h5, _, h7, h8⟩ := close_releases_and_clears 3 103
    (sample_state (sample_thread 3 5) 0 (fun _ => 0) (fun _ => 0) [103, 104]) hlive
  refine ⟨hlive, s1, h1, ?_, ?_, ?_, (h8 hres sample_config (sample_collab none) 4096 1).1⟩
  · rw [h3]; decide
  · rw [h5 4 (by decide)]; decide
  · rw [(h7 (sample_collab none) 0).1]
    exact exit_status_of_exit _ _

/-! ## Writing to a write-denied handle -/

/-- C16 (counterexample): descriptor 3 maps to the handle 103 whose `deny_write`
flag is set; `write (3, buf, 2)` with the buffer at 4096 calls `file_deny_write`
on the handle and then `file_write`, and the flag is still set afterwards. -/
theorem write_keeps_deny_write_counterexample :
    slot (denied_state (sample_thread 3 5) [103, 104]).cur 3 = some (some 103) ∧
    ((denied_state (sample_thread 3 5) [103, 104]).files 103).deny_write = true ∧
    (write sample_config (sample_collab none) 3 4096 2
      (denied_state (sample_thread 3 5) [103, 104])).state?.map (fun s1 => s1.trace)
      = some [Event.lock_acquire, Event.file_deny_write 103, Event.file_write 103 4096 2,
          Event.lock_release] ∧
    (write sample_config (sample_collab none) 3 4096 2
      (denied_state (sample_thread 3 5) [103, 104])).state?.map
        (fun s1 => (s1.files 103).deny_write)
      = some true := by
  refine ⟨by decide, by decide, by decide, by decide⟩

/-- C16 (amended): for a descriptor `fd ≥ 3` that maps to a live handle whose
`deny_write` flag is set, `write (fd, buf, size)` with a buffer at a user
address calls `file_deny_write` on the handle immediately before it delegates
the write to `file_write`, both under the lock, and returns the result of
`file_write`; the handle is still write-denied afterwards. -/
theorem write_denies_before_file_write (cfg : Config) (a : Collab) (fd : Int)
    (buffer size : Nat) (s : State) (h : Handle)
    (hbuf : is_user_vaddr cfg buffer = true) (h3 : 3 ≤ fd)
    (hlive : slot s.cur fd = some (some h)) (hdeny : (s.files h).deny_write = true) :
    ∃ s1 : State,
      write cfg a fd buffer size s = Outcome.ret a.file_write s1 ∧
      events_since s s1
        = [Event.lock_acquire, Event.file_deny_write h,
            Event.file_write h buffer (to_int32 size), Event.lock_release] ∧
      (s1.files h).deny_write = true := by
  have hne1 : fd ≠ 1 := by omega
  have hs1 : slot (lock_acquire s).cur fd = some (some h) := hlive
  have hd1 : ((lock_acquire s).files h).deny_write = true := hdeny
  refine ⟨lock_release (emit (Event.file_write h buffer (to_int32 size))
    (file_deny_write h (lock_acquire s))), ?_, ?_, ?_⟩
  · unfold write
    simp only [hbuf, hne1, h3, ge_iff_le]
    simp only [hs1]
    simp [hd1]
  · unfold events_since
    simp [lock_release, lock_acquire, file_deny_write]
  · simp [lock_release, lock_acquire, file_deny_write]

/-- C16 (amended), instance: descriptor 3 of a process whose handles are all
write-denied. -/
theorem write_denies_before_file_write_witness :
    is_user_vaddr sample_config 4096 = true ∧
    slot (denied_state (sample_thread 3 5) [103, 104]).cur 3 = some (some 103) ∧
    ∃ s1 : State,
      write sample_config (sample_collab none) 3 4096 2
        (denied_state (sample_thread 3 5) [103, 104]) = Outcome.ret 0 s1 ∧
      (s1.files 103).deny_write = true := by
  obtain ⟨s1, h1, _, h3⟩ := write_denies_before_file_write sample_config (sample_collab none)
    3 4096 2 (denied_state (sample_thread 3 5) [103, 104]) 103
    (by decide) (by decide) (by decide) (by decide)
  exact ⟨by decide, by decide, s1, h1, h3⟩

/-! ## The argument array of the dispatcher -/

/-- The dispatch of `sum_of_four_int` has no defined result when the four
argument addresses are user addresses: the fourth word does not fit the array. -/
theorem dispatch_four_words_overflow (cfg : Config) (a : Collab) (s : State)
    (hesp : s.frame.esp < WORD)
    (hnr : cfg.syscall_nr (word_at s.mem s.frame.esp) = some Sysno.SYS_SUM_OF_FOUR_INT)
    (hvalid : ∀ i : Nat, 1 ≤ i → i ≤ 4 → is_user_vaddr cfg (arg_addr s.frame.esp i) = true) :
    syscall_handler cfg a s = Outcome.undefined := by
  unfold syscall_handler
  simp only [load32, hnr, fetch_four_overflows cfg s hesp hvalid, Outcome.bind]

/-- C17, at the failing input: a call whose number is that of
`sum_of_four_int`, with the words 5, 6, 7, 8 above it at user addresses. The
array `arg` of the dispatcher has 3 words; a fetch of 3 words into it returns,
the fetch of 4 words the dispatcher asks for stores at index 3, outside the
array, and the dispatch has no defined result. -/
theorem argument_array_too_small :
    arg_buffer.length = 3 ∧
    sample_config.syscall_nr (word_at (call_state (sample_thread 0 0) 14 5 6 7 8).mem 1000)
      = some Sysno.SYS_SUM_OF_FOUR_INT ∧
    (get_argument sample_config 1000 arg_buffer 3
      (call_state (sample_thread 0 0) 14 5 6 7 8)).value? = some [5, 6, 7] ∧
    get_argument sample_config 1000 arg_buffer 4 (call_state (sample_thread 0 0) 14 5 6 7 8)
      = Outcome.undefined ∧
    syscall_handler sample_config (sample_collab none) (call_state (sample_thread 0 0) 14 5 6 7 8)
      = Outcome.undefined := by
  refine ⟨rfl, by decide, by decide, rfl, rfl⟩

/-! ## The filesystem lock -/

theorem exit_file_lock (status : Int) (s : State) : (exit status s).file_lock = s.file_lock :=
  (exit_spec status s).2.2.2.2.2.2

/-- On a closed descriptor of 3..130 `read` ends in `exit (-1)` with the lock
held, while `write` releases it before `exit (-1)`. -/
theorem read_exits_with_lock_held (cfg : Config) (a : Collab) (fd : Int) (buffer size : Nat)
    (s : State) (hbuf : is_user_vaddr cfg buffer = true) (h3 : 3 ≤ fd)
    (hs : slot s.cur fd = some none) :
    (∃ s1 : State, read cfg a fd buffer size s = Outcome.exited s1 ∧ s1.file_lock = true ∧
      Event.lock_release ∉ events_since s s1) ∧
    (∃ s1 : State, write cfg a fd buffer size s = Outcome.exited s1 ∧ s1.file_lock = false) := by
  have hne0 : fd ≠ 0 := by omega
  have hne1 : fd ≠ 1 := by omega
  have hs1 : slot (lock_acquire s).cur fd = some none := hs
  constructor
  · refine ⟨exit (-1) (lock_acquire s), ?_, ?_, ?_⟩
    · unfold read
      simp only [hbuf, hne0, h3, ge_iff_le]
      simp only [hs1]
      simp
    · rw [exit_file_lock]; rfl
    · unfold events_since
      rw [(exit_spec (-1) (lock_acquire s)).2.1]
      simp [lock_acquire]
  · refine ⟨exit (-1) (lock_release (lock_acquire s)), ?_, ?_⟩
    · unfold write
      simp only [hbuf, hne1, h3, ge_iff_le]
      simp only [hs1]
      simp
    · rw [exit_file_lock]; rfl

/-- Every path of `open` releases the lock. -/
theorem open_releases_lock (a : Collab) (path : Nat) (s : State) :
    (open_ a path s).ends_with fun s1 => s1.file_lock = false := by
  unfold open_ filesys_open
  cases a.filesys_open with
  | none => exact ends_with_ret _ _ _ rfl
  | some f =>
    simp only []
    split
    · exact ends_with_undefined _
    · exact ends_with_ret _ _ _ rfl

/-- Every path of `write` leaves the lock free when it was free at the call. -/
theorem write_releases_lock (cfg : Config) (a : Collab) (fd : Int) (buffer size : Nat)
    (s : State) (hfree : s.file_lock = false) :
    (write cfg a fd buffer size s).ends_with fun s1 => s1.file_lock = false := by
  unfold write
  split
  · exact ends_with_exited _ _ (by rw [exit_file_lock]; exact hfree)
  · simp only []
    split
    · exact ends_with_ret _ _ _ rfl
    · split
      · split
        · exact ends_with_undefined _
        · exact ends_with_exited _ _ (by rw [exit_file_lock]; rfl)
        · exact ends_with_ret _ _ _ rfl
      · exact ends_with_ret _ _ _ rfl

/-- C18, at the failing input: `read (5, buf, 1)` with the buffer at 4096 in a
process that has descriptors 3 and 4 open and does not hold the lock. The call
acquires the lock, finds slot 5 empty and ends in `exit (-1)` without a
`lock_release`: the process is terminated while it holds the lock. The same
call of `write` releases the lock first. -/
theorem read_terminates_holding_lock :
    (sample_state (sample_thread 3 5) 0 (fun _ => 0) (fun _ => 0) [103, 104]).file_lock = false ∧
    (read sample_config (sample_collab none) 5 4096 1
      (sample_state (sample_thread 3 5) 0 (fun _ => 0) (fun _ => 0)
        [103, 104])).exit_status? = some (-1) ∧
    (read sample_config (sample_collab none) 5 4096 1
      (sample_state (sample_thread 3 5) 0 (fun _ => 0) (fun _ => 0) [103, 104])).state?.map
        (fun s1 => s1.file_lock)
      = some true ∧
    (read sample_config (sample_collab none) 5 4096 1
      (sample_state (sample_thread 3 5) 0 (fun _ => 0) (fun _ => 0) [103, 104])).state?.map
        (fun s1 => s1.trace)
      = some [Event.lock_acquire, Event.printf_exit "prog" (-1), Event.file_close 103,
          Event.file_close 104, Event.thread_exit] ∧
    (write sample_config (sample_collab none) 5 4096 1
      (sample_state (sample_thread 3 5) 0 (fun _ => 0) (fun _ => 0) [103, 104])).state?.map
        (fun s1 => s1.file_lock)
      = some false := by
  refine ⟨rfl, by decide, by decide, by decide, by decide⟩

/-! ## The read of the call number -/

/-- C19, at the failing input: the stack pointer is the split 3221225472 itself,
not a user address, and the word there is 0, the number of `halt`. The
dispatcher does not end in `exit (-1)`: it reads the number at the stack pointer,
with no check, and powers the machine off. -/
theorem call_number_read_unchecked :
    is_user_vaddr sample_config 3221225472 = false ∧
    (syscall_handler sample_config (sample_collab none)
      (sample_state (sample_thread 3 5) 3221225472 (fun _ => 0) (fun _ => 0)
        [103, 104])).exit_status? = none ∧
    (syscall_handler sample_config (sample_collab none)
      (sample_state (sample_thread 3 5) 3221225472 (fun _ => 0) (fun _ => 0)
        [103, 104])).state?.map (fun s1 => s1.trace)
      = some [Event.load32 3221225472, Event.shutdown_power_off] := by
  refine ⟨by decide, by decide, by decide⟩

/-- The dispatcher reads the word at the stack pointer before anything else,
whatever the stack pointer is: with the number of `halt` there it powers the
machine off. -/
theorem halt_dispatch_reads_number (cfg : Config) (a : Collab) (s : State)
    (hnr : cfg.syscall_nr (word_at s.mem s.frame.esp) = some Sysno.SYS_HALT) :
    syscall_handler cfg a s
      = Outcome.halted
          (with_events [Event.load32 s.frame.esp, Event.shutdown_power_off] s) := by
  unfold syscall_handler
  simp only [load32, hnr, halt]
  simp [with_events, emit]

/-! ## Handles `open` does not install -/

/-- When the filesystem opens the path and no slot of 3..130 is empty, `open`
returns -1 and the new handle stays open in the filesystem: the table is as
before and `file_close` is not called. -/
theorem open_full_table (a : Collab) (path : Nat) (s : State) (f : Handle)
    (hopen : a.filesys_open = some f)
    (hfull : ∀ j : Nat, 3 ≤ j → j < 131 → slot s.cur (j : Int) ≠ some none) :
    ∃ s1 : State, open_ a path s = Outcome.ret (-1) s1 ∧
      s1.live = f :: s.live ∧ s1.cur = s.cur ∧
      events_since s s1 = [Event.lock_acquire, Event.filesys_open path, Event.lock_release] := by
  have hloop := open_loop_full a f 128 3
    (emit (Event.filesys_open path) { (lock_acquire s) with live := f :: (lock_acquire s).live })
    (by norm_num) (fun j h1 h2 => hfull j h1 (by omega))
  have hcast : ((3 : Nat) : Int) = 3 := rfl
  rw [hcast] at hloop
  refine ⟨lock_release (emit (Event.filesys_open path)
    { (lock_acquire s) with live := f :: (lock_acquire s).live }), ?_, rfl, rfl, ?_⟩
  · unfold open_ filesys_open
    simp only [hopen]
    rw [hloop]
  · unfold events_since
    simp [lock_release, lock_acquire]

/-- When the filesystem cannot open the path, `open` returns -1 and the open
handles are as before. -/
theorem open_failure_keeps_handles (a : Collab) (path : Nat) (s : State)
    (hopen : a.filesys_open = none) :
    ∃ s1 : State, open_ a path s = Outcome.ret (-1) s1 ∧ s1.live = s.live ∧ s1.cur = s.cur := by
  refine ⟨lock_release (emit (Event.filesys_open path) (lock_acquire s)), ?_, rfl, rfl⟩
  unfold open_ filesys_open
  simp only [hopen]

/-- C20, at the failing input: every slot of 3..130 holds a handle and the
filesystem opens the path with the new handle 9. `open` returns -1, the table is
unchanged, `file_close` is not called and the filesystem has one more open
handle than before: handle 9 is neither installed nor released. -/
theorem open_leaks_handle_when_full :
    (∀ j : Fin 131, 3 ≤ j.val → (sample_thread 3 131).file_list j ≠ none) ∧
    (∀ j : Fin 131, (sample_thread 3 131).file_list j ≠ some 9) ∧
    9 ∉ open_handles (sample_thread 3 131) ∧
    ∃ s1 : State,
      open_ (sample_collab (some 9)) 0
        (sample_state (sample_thread 3 131) 0 (fun _ => 0) (fun _ => 0)
          (open_handles (sample_thread 3 131))) = Outcome.ret (-1) s1 ∧
      s1.live = 9 :: open_handles (sample_thread 3 131) ∧
      s1.cur = sample_thread 3 131 ∧
      s1.trace = [Event.lock_acquire, Event.filesys_open 0, Event.lock_release] := by
  have hfull : ∀ j : Nat, 3 ≤ j → j < 131 →
      slot (sample_thread 3 131) (j : Int) ≠ some none := by
    intro j h3 h131
    rw [slot_in _ _ (by omega)]
    simp [sample_thread]
    omega
  obtain ⟨s1, h1, h2, h3, h4⟩ := open_full_table (sample_collab (some 9)) 0
    (sample_state (sample_thread 3 131) 0 (fun _ => 0) (fun _ => 0)
      (open_handles (sample_thread 3 131))) 9 rfl hfull
  refine ⟨by decide, by decide, by decide, s1, h1, h2, h3, ?_⟩
  have : s1.trace = [] ++ events_since (sample_state (sample_thread 3 131) 0 (fun _ => 0)
      (fun _ => 0) (open_handles (sample_thread 3 131))) s1 := by
    unfold events_since
    simp [sample_state]
  rw [this, h4]
  rfl

/-! ## Dispatch of every known call -/

end Syscall
